import Mathlib

/-!
# Vector-Defense: shallow embedding of the frame simulation loop

This file embeds the update logic of the game's `main` loop (main.cpp) in
Lean 4 and proves properties of it.

Modelling conventions:

* C++ `float` values are modelled as `ℚ`; C++ `int` as `ℤ`.  Float literals
  (`0.8f`, `1.25f`, ...) become the exact rationals they denote.
* `GetDistance` computes a Euclidean distance with `sqrtf`.  Every *comparison*
  `GetDistance(a,b) <op> c` in the source is embedded as the exactly equivalent
  comparison of squared quantities `dist2 a b <op> c*c` (the square is a strictly
  monotone bijection on nonnegative reals, so the source's comparisons are
  preserved exactly).  The one place where the distance *value* itself is used
  (the Pulse damage formula `(500 - dist) / 5`) uses `ratSqrt`, which is exact
  whenever the squared distance is a perfect rational square — which holds in
  every concrete scenario evaluated in this file.
* Calls to the random generator (`GetRandomValue`) and to trigonometry whose
  results feed back into state (the unit direction vectors produced by
  `atan2f`/`cosf`/`sinf`) are modelled as oracle fields of the per-frame
  `Input` record: the embedding applies them exactly where the source applies
  the corresponding library call.  `ValidInput` records the range contract of
  the side-count draw.
* Rendering, audio and the score file are external collaborators; only their
  state effects (button clicks mutating game state, `scoreSaved`) are kept.
  The cosmetic `menuShapes` background, the `Camera2D` offset and the
  high-score list are pure render-side data and are omitted.
-/

/-- Two-dimensional point/vector with rational coordinates (raylib `Vector2`). -/
structure V2 where
  x : ℚ
  y : ℚ
deriving DecidableEq, Repr

/-- Squared Euclidean distance; the monotone image of `GetDistance` (main.cpp:106). -/
def dist2 (a b : V2) : ℚ :=
  (b.x - a.x) * (b.x - a.x) + (b.y - a.y) * (b.y - a.y)

/-- Rational square root, exact on perfect rational squares (used only where the
source consumes the distance *value*, namely the Pulse damage formula). -/
def ratSqrt (q : ℚ) : ℚ :=
  (Nat.sqrt q.num.toNat : ℚ) / (Nat.sqrt q.den : ℚ)

/-- C++ `(int)` cast from a float: truncation toward zero. -/
def cTrunc (q : ℚ) : ℤ :=
  if 0 ≤ q then ⌊q⌋ else ⌈q⌉

/-- Axis-aligned rectangle (raylib `Rectangle`). -/
structure RectQ where
  x : ℚ
  y : ℚ
  w : ℚ
  h : ℚ
deriving DecidableEq, Repr

/-- Point-in-rectangle test (raylib `CheckCollisionPointRec`). -/
def inRect (p : V2) (r : RectQ) : Bool :=
  decide (r.x ≤ p.x) && decide (p.x < r.x + r.w) &&
  decide (r.y ≤ p.y) && decide (p.y < r.y + r.h)

/-- The color palette constants used by the simulation (visual only). -/
inductive VColor where
  | white
  | skyblue
  | gold
  | red
  | purple
  | cyan
  | lime
deriving DecidableEq, Repr

/-- Screens of the coarse mode state machine (main.cpp `GameScreen`). -/
inductive GameScreen where
  | startMenu
  | guide
  | gameplay
  | upgradeMenu
  | gameOver
  | leaderboard
deriving DecidableEq, Repr

/-- Power-up kinds (main.cpp `PowerType`). -/
inductive PowerType where
  | emp
  | overdrive
  | heal
deriving DecidableEq, Repr

/-- Tower kinds (main.cpp `TowerType`). -/
inductive TowerType where
  | standard
  | cryo
  | tesla
deriving DecidableEq, Repr

/-- Enemy record (main.cpp `struct Enemy`). -/
structure Enemy where
  position : V2
  speed : ℚ
  sides : ℤ
  health : ℚ
  maxHealth : ℚ
  active : Bool
  radius : ℚ
  slowTimer : ℚ
deriving DecidableEq, Repr

/-- Tower record (main.cpp `struct Tower`). -/
structure Tower where
  position : V2
  shootTimer : ℚ
  ttype : TowerType
deriving DecidableEq, Repr

/-- Power-up record (main.cpp `struct PowerUp`). -/
structure PowerUp where
  position : V2
  ptype : PowerType
  timer : ℚ
  active : Bool
  rotation : ℚ
deriving DecidableEq, Repr

/-- Laser record (main.cpp `struct Laser`). -/
structure Laser where
  laserStart : V2
  laserEnd : V2
  lifetime : ℚ
  col : VColor
deriving DecidableEq, Repr

/-- Particle record (main.cpp `struct Particle`). -/
structure Particle where
  pos : V2
  vel : V2
  col : VColor
  life : ℚ
  maxLife : ℚ
  seekingCore : Bool
deriving DecidableEq, Repr

/-- HUD message record (main.cpp `struct Notification`). -/
structure Notif where
  text : String
  timer : ℚ
  col : VColor
deriving DecidableEq, Repr

/-- The whole mutable simulation state of `main` (main.cpp:138-172). -/
structure GameState where
  screen : GameScreen
  coreHealth : ℤ
  maxCoreHealth : ℤ
  score : ℤ
  currency : ℤ
  currentWave : ℤ
  enemiesToSpawn : ℤ
  spawnTimer : ℚ
  waveActive : Bool
  bossInQueue : Bool
  maxTowers : ℤ
  towerFireRate : ℚ
  towerRange : ℚ
  pulseWaveCharges : ℤ
  currentSelection : TowerType
  cryoUnlocked : Bool
  teslaUnlocked : Bool
  pendingCryoNotify : Bool
  pendingTeslaNotify : Bool
  playerName : String
  letterCount : ℤ
  scoreSaved : Bool
  empTimer : ℚ
  overdriveTimer : ℚ
  empWaveRadius : ℚ
  pulseVisualRadius : ℚ
  shakeIntensity : ℚ
  damageFlashTimer : ℚ
  enemies : List Enemy
  towers : List Tower
  lasers : List Laser
  powerups : List PowerUp
  particles : List Particle
  notifications : List Notif

/-- Per-frame external input: the frame delta, polled input devices and the
oracles standing for `GetRandomValue` draws and the trigonometric direction
vectors the source computes (see the module docstring). -/
structure Input where
  dt : ℚ
  mousePos : V2
  mousePressed : Bool
  keyEnter : Bool
  keyEscape : Bool
  keyBackspace : Bool
  keyU : Bool
  keySpace : Bool
  keyOne : Bool
  keyTwo : Bool
  keyThree : Bool
  chars : List ℤ
  spawnAngleDir : V2
  spawnSides : ℤ
  bossAngleDir : V2
  moveDir : ℕ → V2
  dropRoll : ℕ → ℤ
  dropType : ℕ → PowerType
  burstVel : ℕ → ℕ → V2
  healOffset : ℕ → V2
  particleDir : ℕ → V2
  sparkRoll : ℕ → ℤ
  sparkOffset : ℕ → V2

/-- Position of the defended core: screen center (main.cpp:139). -/
def corePos : V2 := ⟨640, 360⟩

/-- The "ACTIVATE PULSE" button rectangle (main.cpp:191). -/
def pulseRect : RectQ := ⟨25, 600, 230, 50⟩

/-- "BOOT SEQUENCE" button (main.cpp:456). -/
def bootRect : RectQ := ⟨490, 360, 300, 65⟩

/-- "LEADERBOARD" button (main.cpp:457). -/
def lbRect : RectQ := ⟨490, 440, 300, 65⟩

/-- "SYSTEM GUIDE" button (main.cpp:458). -/
def guideRect : RectQ := ⟨490, 520, 300, 65⟩

/-- "< RETURN" button on guide/leaderboard screens (main.cpp:467,476). -/
def returnRect : RectQ := ⟨540, 620, 200, 50⟩

/-- "OPEN ARMORY" footer button (main.cpp:500). -/
def armoryRect : RectQ := ⟨730, 648, 250, 60⟩

/-- "START WAVE" footer button (main.cpp:501). -/
def startWaveRect : RectQ := ⟨1000, 648, 250, 60⟩

/-- "BUY NODE SLOT" armory button (main.cpp:510). -/
def buySlotRect : RectQ := ⟨440, 180, 400, 65⟩

/-- "PULSE CHARGE (300)" armory button (main.cpp:516). -/
def buyPulseRect : RectQ := ⟨440, 260, 400, 65⟩

/-- "OVERCLOCK FIRE" armory button (main.cpp:517). -/
def buyFireRect : RectQ := ⟨440, 340, 400, 65⟩

/-- "CORE REPAIR (450)" armory button (main.cpp:518). -/
def buyRepairRect : RectQ := ⟨440, 420, 400, 65⟩

/-- "SAVE DATA" button on the game-over screen (main.cpp:550). -/
def saveRect : RectQ := ⟨600, 410, 200, 50⟩

/-- "REBOOT SYSTEM" button on the game-over screen (main.cpp:558). -/
def rebootRect : RectQ := ⟨490, 600, 300, 65⟩

/-- A `DrawCustomButton` returns a click: hovering and left button pressed this
frame (main.cpp:110-118). -/
def clicked (i : Input) (r : RectQ) : Bool :=
  inRect i.mousePos r && i.mousePressed

/-- Initial simulation state (main.cpp:138-163). -/
def initState : GameState where
  screen := GameScreen.startMenu
  coreHealth := 20
  maxCoreHealth := 20
  score := 0
  currency := 0
  currentWave := 0
  enemiesToSpawn := 0
  spawnTimer := 0
  waveActive := false
  bossInQueue := false
  maxTowers := 3
  towerFireRate := 4/5
  towerRange := 230
  pulseWaveCharges := 0
  currentSelection := TowerType.standard
  cryoUnlocked := false
  teslaUnlocked := false
  pendingCryoNotify := false
  pendingTeslaNotify := false
  playerName := ""
  letterCount := 0
  scoreSaved := false
  empTimer := 0
  overdriveTimer := 0
  empWaveRadius := 0
  pulseVisualRadius := 0
  shakeIntensity := 0
  damageFlashTimer := 0
  enemies := []
  towers := []
  lasers := []
  powerups := []
  particles := []
  notifications := []

/-- The `mouseOnUi` flag computed at the top of each frame from the *previous*
frame's state (main.cpp:189-193). -/
def mouseOnUi (i : Input) (s : GameState) : Bool :=
  decide (i.mousePos.y < 60)
  || (!s.waveActive && s.enemies.isEmpty && decide (635 < i.mousePos.y))
  || (s.waveActive && decide (0 < s.pulseWaveCharges) && inRect i.mousePos pulseRect)
  || decide (s.screen = GameScreen.upgradeMenu)
  || decide (s.screen = GameScreen.gameOver)

/-- Screen-shake decay and damage-flash decay, run on every frame before the
screen switch (main.cpp:195-201).  The random camera offset is render-only. -/
def housekeeping (i : Input) (s : GameState) : GameState :=
  let s1 := if 0 < s.shakeIntensity
    then { s with shakeIntensity := s.shakeIntensity - 15 * i.dt } else s
  if 0 < s1.damageFlashTimer
    then { s1 with damageFlashTimer := s1.damageFlashTimer - i.dt } else s1

/-- Tower-type selection keys [1]/[2]/[3]; Cryo and Tesla require their unlock
flags (main.cpp:232-234). -/
def selectKeys (i : Input) (s : GameState) : GameState :=
  let s1 := if i.keyOne then { s with currentSelection := TowerType.standard } else s
  let s2 := if i.keyTwo && s1.cryoUnlocked
    then { s1 with currentSelection := TowerType.cryo } else s1
  if i.keyThree && s2.teslaUnlocked
    then { s2 with currentSelection := TowerType.tesla } else s2

/-- The on-screen pulse button fires when the wave is active, a charge is
available, and the button is hovered and clicked (main.cpp:236). -/
def pulseTriggered (i : Input) (s : GameState) : Bool :=
  s.waveActive && decide (0 < s.pulseWaveCharges) && inRect i.mousePos pulseRect
    && i.mousePressed

/-- First active power-up within pickup distance (45px) of the mouse, with its
index (main.cpp:240-251 loop, which breaks at the first hit). -/
def findPickup (mouse : V2) : List PowerUp → ℕ → Option (ℕ × PowerUp)
  | [], _ => none
  | p :: r, idx =>
    if p.active ∧ dist2 mouse p.position < 2025
    then some (idx, p)
    else findPickup mouse r (idx + 1)

/-- Effect of picking up the power-up `p` found at index `idx`
(main.cpp:242-249): EMP and Overdrive arm their timers, Heal restores core
health up to the maximum and spawns 80 core-seeking particles; the power-up is
deactivated in place. -/
def applyPickup (i : Input) (idx : ℕ) (p : PowerUp) (s : GameState) : GameState :=
  let s1 : GameState :=
    match p.ptype with
    | PowerType.emp =>
      { s with empTimer := 9/2, empWaveRadius := 10,
               notifications := s.notifications ++ [⟨"SYSTEM EMP ACTIVATED", 2, VColor.purple⟩] }
    | PowerType.overdrive =>
      { s with overdriveTimer := 7,
               notifications := s.notifications ++ [⟨"LASER OVERDRIVE ONLINE", 2, VColor.gold⟩] }
    | PowerType.heal =>
      { s with coreHealth := min (s.coreHealth + 3) s.maxCoreHealth,
               notifications := s.notifications ++ [⟨"INTEGRITY RESTORED", 2, VColor.cyan⟩],
               particles := s.particles ++ (List.range 80).map (fun n =>
                 ⟨⟨p.position.x + (i.healOffset n).x, p.position.y + (i.healOffset n).y⟩,
                  ⟨0, 0⟩, VColor.cyan, 3/2, 3/2, true⟩) }
  { s1 with powerups := s1.powerups.set idx { p with active := false } }

/-- Left-click handling during gameplay (main.cpp:238-255): if the click is not
over UI, try a power-up pickup first; otherwise place a tower of the selected
type, provided a slot is free and the spot is outside the core exclusion ring
(`EXCLUSION_RADIUS = 85`, compared squared: `85*85 = 7225`). -/
def clickPhase (i : Input) (ui : Bool) (s : GameState) : GameState :=
  if i.mousePressed && !ui then
    match findPickup i.mousePos s.powerups 0 with
    | some (idx, p) => applyPickup i idx p s
    | none =>
      if (s.towers.length : ℤ) < s.maxTowers ∧ 7225 < dist2 i.mousePos corePos
      then { s with towers := s.towers ++ [⟨i.mousePos, 0, s.currentSelection⟩] }
      else s
  else s

/-- Pulse shockwave damage to one enemy (main.cpp:260-266): inside radius 450
of the core (squared: 202500) it loses `(500 - dist)/5` health and is marked
inactive if that brings it to 0 or below. -/
def pulseHit (e : Enemy) : Enemy :=
  let d2 := dist2 corePos e.position
  if d2 < 202500 then
    let h := e.health - (500 - ratSqrt d2) / 5
    { e with health := h, active := if h ≤ 0 then false else e.active }
  else e

/-- Guard of the Pulse branch (main.cpp:257): the space key or the pulse
button, a positive charge count, and an active wave. -/
def pulseFires (i : Input) (pt : Bool) (s : GameState) : Bool :=
  (i.keySpace || pt) && decide (0 < s.pulseWaveCharges) && s.waveActive

/-- Pulse activation (main.cpp:257-267): consumes one charge, triggers shake
and the expanding ring visual, emits a notification and damages every enemy
near the core. -/
def pulsePhase (i : Input) (pt : Bool) (s : GameState) : GameState :=
  if pulseFires i pt s then
    { s with pulseWaveCharges := s.pulseWaveCharges - 1,
             shakeIntensity := 25,
             pulseVisualRadius := 10,
             notifications := s.notifications ++ [⟨"PULSE DISCHARGED", 5/2, VColor.red⟩],
             enemies := s.enemies.map pulseHit }
  else s

/-- Spawn interval for a wave (main.cpp:271): `max(0.15, 1.25 - wave*0.06)`. -/
def spawnRate (wave : ℤ) : ℚ :=
  max (3/20) (5/4 - (wave : ℚ) * (3/50))

/-- A freshly spawned regular enemy (main.cpp:273-279).  Its position is a
point on the radius-850 ring around the core (the random angle's unit vector is
the oracle `spawnAngleDir`); its side count is the oracle `spawnSides` draw;
speed and health are the source's deterministic functions of sides and wave. -/
def newEnemy (i : Input) (wave : ℤ) : Enemy where
  position := ⟨corePos.x + 850 * i.spawnAngleDir.x, corePos.y + 850 * i.spawnAngleDir.y⟩
  radius := 22
  sides := i.spawnSides
  speed := (180 - (i.spawnSides : ℚ) * 8) * min (8/5 : ℚ) (1 + (wave : ℚ) * (7/200))
  maxHealth := (i.spawnSides : ℚ) * (6/5)
  health := (i.spawnSides : ℚ) * (6/5)
  active := true
  slowTimer := 0

/-- The boss enemy (main.cpp:282-286): 24 sides, radius 90, `180 + 25*wave`
health, speed 25. -/
def newBoss (i : Input) (wave : ℤ) : Enemy where
  position := ⟨corePos.x + 850 * i.bossAngleDir.x, corePos.y + 850 * i.bossAngleDir.y⟩
  radius := 90
  sides := 24
  speed := 25
  maxHealth := 180 + (wave : ℚ) * 25
  health := 180 + (wave : ℚ) * 25
  active := true
  slowTimer := 0

/-- Wave Director spawn scheduling (main.cpp:269-288): while the wave is
active, accumulate the spawn timer; spawn one regular enemy when it exceeds the
spawn interval and the queue is nonempty, else spawn the queued boss after a
1.8s delay. -/
def spawnPhase (i : Input) (s : GameState) : GameState :=
  if s.waveActive then
    let st := s.spawnTimer + i.dt
    if 0 < s.enemiesToSpawn ∧ spawnRate s.currentWave < st then
      { s with spawnTimer := 0,
               enemiesToSpawn := s.enemiesToSpawn - 1,
               enemies := s.enemies ++ [newEnemy i s.currentWave] }
    else if s.enemiesToSpawn ≤ 0 ∧ s.bossInQueue ∧ (9/5 : ℚ) < st then
      { s with spawnTimer := 0,
               bossInQueue := false,
               enemies := s.enemies ++ [newBoss i s.currentWave],
               notifications := s.notifications ++ [⟨"BOSS DETECTED", 3, VColor.red⟩] }
    else { s with spawnTimer := st }
  else s

/-- Accumulator of the enemy Lifecycle Sweeper loop (main.cpp:290-314): the
kept enemies, pending split spawns, and every piece of global state the loop
mutates. -/
structure SweepAcc where
  kept : List Enemy
  splits : List Enemy
  coreHealth : ℤ
  currency : ℤ
  score : ℤ
  shakeIntensity : ℚ
  damageFlashTimer : ℚ
  powerups : List PowerUp
  particles : List Particle

/-- The interesting-tier split condition (main.cpp:303): at least 6 sides and
radius above 20. -/
def splitCond (e : Enemy) : Bool :=
  decide (6 ≤ e.sides) && decide (20 < e.radius)

/-- The minimum-tier replacement enemy spawned by a split (main.cpp:305-307):
3 sides, radius 16, health 5, speed 180. -/
def miniEnemy (pos : V2) : Enemy where
  position := pos
  sides := 3
  radius := 16
  maxHealth := 5
  health := 5
  speed := 180
  active := true
  slowTimer := 0

/-- The two split replacements spawned at a dead parent's position
(main.cpp:304-309). -/
def splitChildren (pos : V2) : List Enemy :=
  [miniEnemy pos, miniEnemy pos]

/-- The 12-particle death burst (`SpawnParticleBurst`, main.cpp:125-131,302);
velocities come from the random oracle `burstVel`. -/
def burstParticles (i : Input) (idx : ℕ) (pos : V2) : List Particle :=
  (List.range 12).map (fun n => ⟨pos, i.burstVel idx n, VColor.white, 1, 1, false⟩)

/-- Enemy movement within the sweep (main.cpp:292-296): unless frozen by EMP,
the enemy advances toward the core (direction unit vector from the oracle
`moveDir`), at 40% speed while slowed, the slow timer ticking down. -/
def moveEnemy (i : Input) (empT : ℚ) (idx : ℕ) (e : Enemy) : Enemy :=
  if empT ≤ 0 then
    let ms := if 0 < e.slowTimer then e.speed * (2/5) else e.speed
    let sl := if 0 < e.slowTimer then e.slowTimer - i.dt else e.slowTimer
    { e with position := ⟨e.position.x + (i.moveDir idx).x * ms * i.dt,
                          e.position.y + (i.moveDir idx).y * ms * i.dt⟩,
             slowTimer := sl }
  else e

/-- One iteration of the enemy sweep loop (main.cpp:291-314) on the enemy that
sat at index `idx` of the pre-sweep list: move, then either damage the core and
erase, erase an inactive enemy with its death effects, or keep. -/
def sweepEnemy (i : Input) (empT : ℚ) (idx : ℕ) (a : SweepAcc) (e : Enemy) : SweepAcc :=
  let moved : Enemy := moveEnemy i empT idx e
  if dist2 moved.position corePos < 2500 then
    { a with coreHealth := a.coreHealth - (if moved.sides = 24 then 5 else 1),
             shakeIntensity := 18,
             damageFlashTimer := 18/100 }
  else if moved.active = false then
    { a with currency := a.currency + moved.sides * 14 + 20,
             score := a.score + cTrunc (moved.maxHealth * 100),
             particles := a.particles ++ burstParticles i idx moved.position,
             splits := a.splits ++ (if splitCond moved then splitChildren moved.position else []),
             powerups := a.powerups ++
               (if i.dropRoll idx ≤ 20
                then [⟨moved.position, i.dropType idx, 10, true, 0⟩] else []) }
  else
    { a with kept := a.kept ++ [moved] }

/-- Run the sweep loop over a list of enemies starting at index `idx`. -/
def sweepGo (i : Input) (empT : ℚ) : ℕ → SweepAcc → List Enemy → SweepAcc
  | _, a, [] => a
  | idx, a, e :: r => sweepGo i empT (idx + 1) (sweepEnemy i empT idx a e) r

/-- The enemy Lifecycle Sweeper pass (main.cpp:290-315): one erase-while-
iterating sweep over the enemy collection, followed by appending the collected
split spawns. -/
def sweepPhase (i : Input) (s : GameState) : GameState :=
  let a := sweepGo i s.empTimer 0
    ⟨[], [], s.coreHealth, s.currency, s.score, s.shakeIntensity,
     s.damageFlashTimer, s.powerups, s.particles⟩ s.enemies
  { s with enemies := a.kept ++ a.splits,
           coreHealth := a.coreHealth,
           currency := a.currency,
           score := a.score,
           shakeIntensity := a.shakeIntensity,
           damageFlashTimer := a.damageFlashTimer,
           powerups := a.powerups,
           particles := a.particles }

/-- The "WAVE CLEAR" notification record (main.cpp:318). -/
def waveClearNote : Notif := ⟨"WAVE CLEAR", 2, VColor.skyblue⟩

/-- Wave-completion check (main.cpp:317-319): an active wave whose spawn queue
is exhausted, with no boss pending and no enemies left, becomes inactive; all
towers are cleared and the wave-clear notification is emitted. -/
def waveEndStep (s : GameState) : GameState :=
  if s.waveActive ∧ s.enemiesToSpawn ≤ 0 ∧ s.bossInQueue = false ∧ s.enemies = [] then
    { s with waveActive := false,
             towers := [],
             notifications := s.notifications ++ [waveClearNote] }
  else s

/-- Targeting scan (main.cpp:333-337): running strict-minimum fold over the
enemy list, seeded with the tower range, returning the index of the chosen
target.  Distances are compared squared. -/
def argminAux (tpos : V2) : List Enemy → ℕ → Option ℕ → ℚ → Option ℕ
  | [], _, best, _ => best
  | e :: r, idx, best, bestD =>
    let d := dist2 tpos e.position
    if d < bestD then argminAux tpos r (idx + 1) (some idx) d
    else argminAux tpos r (idx + 1) best bestD

/-- Target acquisition for a tower at `tpos` with squared range `range2`:
the first enemy attaining the strictly smallest squared distance below
`range2` (main.cpp:333-337). -/
def acquireTarget (tpos : V2) (range2 : ℚ) (es : List Enemy) : Option ℕ :=
  argminAux tpos es 0 none range2

/-- Tesla secondary-target scan (main.cpp:343-348): nearest enemy to the
primary target's position other than the target itself, within radius 200
(squared: 40000). -/
def secondaryAux (p : V2) (k : ℕ) : List Enemy → ℕ → Option ℕ → ℚ → Option ℕ
  | [], _, best, _ => best
  | e :: r, idx, best, bestD =>
    if idx = k then secondaryAux p k r (idx + 1) best bestD
    else
      let d := dist2 p e.position
      if d < bestD then secondaryAux p k r (idx + 1) (some idx) d
      else secondaryAux p k r (idx + 1) best bestD

/-- Entry point of the secondary-target scan. -/
def acquireSecondary (p : V2) (k : ℕ) (es : List Enemy) : Option ℕ :=
  secondaryAux p k es 0 none 40000

/-- The laser color of a tower's primary beam (main.cpp:339-354). -/
def laserColOf : TowerType → VColor
  | TowerType.standard => VColor.white
  | TowerType.cryo => VColor.skyblue
  | TowerType.tesla => VColor.gold

/-- Damage application of one tower shot at the target index `k`
(main.cpp:338-356): per-type damage (Cryo also slows; Tesla also chains to a
secondary enemy, marking it inactive if it dies, and pushes the chain laser
first), then the common inactive-marking of the target and the primary laser. -/
def towerShoot (ty : TowerType) (tpos : V2) (k : ℕ) (es : List Enemy)
    (ls : List Laser) : List Enemy × List Laser :=
  match es.get? k with
  | none => (es, ls)
  | some tgt =>
    let step1 : List Enemy × List Laser :=
      match ty with
      | TowerType.standard => (es.set k { tgt with health := tgt.health - 1 }, ls)
      | TowerType.cryo =>
        (es.set k { tgt with health := tgt.health - 1/2, slowTimer := 3/2 }, ls)
      | TowerType.tesla =>
        let esA := es.set k { tgt with health := tgt.health - 4/5 }
        match acquireSecondary tgt.position k esA with
        | none => (esA, ls)
        | some m =>
          match esA.get? m with
          | none => (esA, ls)
          | some sec =>
            let sec1 := { sec with health := sec.health - 3/5 }
            let sec2 := if sec1.health ≤ 0 then { sec1 with active := false } else sec1
            (esA.set m sec2, ls ++ [⟨tgt.position, sec.position, 12/100, VColor.gold⟩])
    let es2 : List Enemy :=
      match step1.1.get? k with
      | none => step1.1
      | some tg1 =>
        if tg1.health ≤ 0 then step1.1.set k { tg1 with active := false } else step1.1
    (es2, step1.2 ++ [⟨tpos, tgt.position, 7/100, laserColOf ty⟩])

/-- Effective fire interval of a tower (main.cpp:321,328-330): 0.05 while
Overdrive is running, else the base `towerFireRate`; Cryo and Tesla towers
multiply the interval by 1.5. -/
def effRate (overdriveTimer towerFireRate : ℚ) (ty : TowerType) : ℚ :=
  let currentRate := if 0 < overdriveTimer then 1/20 else towerFireRate
  let r1 := if ty = TowerType.cryo then currentRate * (3/2) else currentRate
  if ty = TowerType.tesla then r1 * (3/2) else r1

/-- Accumulator of the tower-firing loop: processed towers plus the shared
enemy/laser/particle collections the loop mutates. -/
structure TowerAcc where
  done : List Tower
  enemies : List Enemy
  lasers : List Laser
  particles : List Particle

/-- One iteration of the tower loop (main.cpp:322-359) on the tower at index
`j`: accumulate the shoot timer, randomly emit a spark particle while
Overdrive runs, and fire at the acquired target when the timer has reached the
effective interval (resetting it); with no target in range the timer keeps its
accumulated value. -/
def stepTower (i : Input) (od fr range2 : ℚ) (j : ℕ) (acc : TowerAcc) (t : Tower) :
    TowerAcc :=
  let timer := t.shootTimer + i.dt
  let parts := if 0 < od ∧ i.sparkRoll j = 0
    then acc.particles ++
      [⟨⟨t.position.x + 18 * (i.sparkOffset j).x, t.position.y + 18 * (i.sparkOffset j).y⟩,
        ⟨0, -120⟩, VColor.gold, 2/5, 2/5, false⟩]
    else acc.particles
  if effRate od fr t.ttype ≤ timer then
    match acquireTarget t.position range2 acc.enemies with
    | none =>
      { acc with done := acc.done ++ [{ t with shootTimer := timer }], particles := parts }
    | some k =>
      let shot := towerShoot t.ttype t.position k acc.enemies acc.lasers
      { done := acc.done ++ [{ t with shootTimer := 0 }],
        enemies := shot.1, lasers := shot.2, particles := parts }
  else
    { acc with done := acc.done ++ [{ t with shootTimer := timer }], particles := parts }

/-- Run the tower loop from index `j`. -/
def towersGo (i : Input) (od fr range2 : ℚ) : ℕ → TowerAcc → List Tower → TowerAcc
  | _, acc, [] => acc
  | j, acc, t :: r => towersGo i od fr range2 (j + 1) (stepTower i od fr range2 j acc t) r

/-- The Combat Resolver pass (main.cpp:321-359). -/
def towersPhase (i : Input) (s : GameState) : GameState :=
  let acc := towersGo i s.overdriveTimer s.towerFireRate (s.towerRange * s.towerRange) 0
    ⟨[], s.enemies, s.lasers, s.particles⟩ s.towers
  { s with towers := acc.done,
           enemies := acc.enemies,
           lasers := acc.lasers,
           particles := acc.particles }

/-- Laser lifetime sweep (main.cpp:361). -/
def lasersPhase (i : Input) (s : GameState) : GameState :=
  let ls := (s.lasers.map (fun l => { l with lifetime := l.lifetime - i.dt })).filter
    (fun l => decide (0 < l.lifetime))
  { s with lasers := ls }

/-- Power-up sweep (main.cpp:363-373): the countdown timer ticks only while a
wave is active, the rotation always advances, and a power-up is erased when its
timer has run out or it has been deactivated by a pickup. -/
def powerupsPhase (i : Input) (s : GameState) : GameState :=
  let ps := (s.powerups.map (fun p =>
      { p with timer := if s.waveActive then p.timer - i.dt else p.timer,
               rotation := p.rotation + 120 * i.dt })).filter
    (fun p => decide (0 < p.timer) && p.active)
  { s with powerups := ps }

/-- One particle update (main.cpp:375-383): life ticks down; core-seeking
particles move toward the core (oracle direction) and expire on arrival, others
follow their velocity. -/
def stepParticle (i : Input) (idx : ℕ) (p : Particle) : Particle :=
  let life := p.life - i.dt
  if p.seekingCore then
    let np : V2 := ⟨p.pos.x + (i.particleDir idx).x * 600 * i.dt,
                    p.pos.y + (i.particleDir idx).y * 600 * i.dt⟩
    { p with pos := np, life := if dist2 np corePos < 225 then 0 else life }
  else
    { p with pos := ⟨p.pos.x + p.vel.x * i.dt, p.pos.y + p.vel.y * i.dt⟩, life := life }

/-- Particle sweep (main.cpp:375-383). -/
def particlesPhase (i : Input) (s : GameState) : GameState :=
  let ps := (s.particles.mapIdx (fun idx p => stepParticle i idx p)).filter
    (fun p => decide (0 < p.life))
  { s with particles := ps }

/-- Notification sweep (main.cpp:384). -/
def notifsPhase (i : Input) (s : GameState) : GameState :=
  let ns := (s.notifications.map (fun n => { n with timer := n.timer - i.dt })).filter
    (fun n => decide (0 < n.timer))
  { s with notifications := ns }

/-- Expanding-ring visuals (main.cpp:385-386): the EMP ring grows at 1600/s up
to 2500, the pulse ring at 2200/s up to 1500, then reset to zero. -/
def visualsPhase (i : Input) (s : GameState) : GameState :=
  let s1 := if 0 < s.empWaveRadius then
      { s with empWaveRadius :=
          if 2500 < s.empWaveRadius + 1600 * i.dt then 0
          else s.empWaveRadius + 1600 * i.dt }
    else s
  if 0 < s1.pulseVisualRadius then
    { s1 with pulseVisualRadius :=
        if 1500 < s1.pulseVisualRadius + 2200 * i.dt then 0
        else s1.pulseVisualRadius + 2200 * i.dt }
  else s1

/-- EMP and Overdrive timers tick down while positive (main.cpp:388-393). -/
def abilityTimersPhase (i : Input) (s : GameState) : GameState :=
  let s1 := if 0 < s.empTimer then { s with empTimer := s.empTimer - i.dt } else s
  if 0 < s1.overdriveTimer
  then { s1 with overdriveTimer := s1.overdriveTimer - i.dt } else s1

/-- Defeat check (main.cpp:395): a non-positive core health switches to the
game-over screen and resets the name-entry state. -/
def gameOverCheck (s : GameState) : GameState :=
  if s.coreHealth ≤ 0 then
    { s with screen := GameScreen.gameOver, scoreSaved := false,
             playerName := "", letterCount := 0 }
  else s

/-- The [U] key opens the armory during the build phase (main.cpp:396). -/
def upgradeKey (i : Input) (s : GameState) : GameState :=
  if i.keyU && !s.waveActive then { s with screen := GameScreen.upgradeMenu } else s

/-- The whole gameplay update pass in source order (main.cpp:231-397).
`ui` is the `mouseOnUi` flag computed at the top of the frame. -/
def gameplayUpdate (i : Input) (ui : Bool) (s : GameState) : GameState :=
  let s1 := selectKeys i s
  let pt := pulseTriggered i s1
  let s2 := clickPhase i ui s1
  let s3 := pulsePhase i pt s2
  let s4 := spawnPhase i s3
  let s5 := sweepPhase i s4
  let s6 := waveEndStep s5
  let s7 := towersPhase i s6
  let s8 := lasersPhase i s7
  let s9 := powerupsPhase i s8
  let s10 := particlesPhase i s9
  let s11 := notifsPhase i s10
  let s12 := visualsPhase i s11
  let s13 := abilityTimersPhase i s12
  upgradeKey i (gameOverCheck s13)

/-- Update pass of the armory screen (main.cpp:215-229): [U] or [Enter]
dismisses back to gameplay and flushes pending unlock notifications.  (The
purchase buttons themselves are processed in the render pass, main.cpp:505-518.) -/
def upgradeMenuUpdate (i : Input) (s : GameState) : GameState :=
  if i.keyU || i.keyEnter then
    let s1 : GameState := { s with screen := GameScreen.gameplay }
    let cryoNotes : List Notif :=
      [⟨"CRYO-TECH UNLOCKED!", 5, VColor.skyblue⟩, ⟨"PRESS [2] TO SELECT", 5, VColor.white⟩]
    let teslaNotes : List Notif :=
      [⟨"TESLA-TECH UNLOCKED!", 5, VColor.gold⟩, ⟨"PRESS [3] TO SELECT", 5, VColor.white⟩]
    let s2 : GameState := if s1.pendingCryoNotify then
        { s1 with notifications := s1.notifications ++ cryoNotes, pendingCryoNotify := false }
      else s1
    if s2.pendingTeslaNotify then
      { s2 with notifications := s2.notifications ++ teslaNotes, pendingTeslaNotify := false }
    else s2
  else s

/-- One printable character of name entry (main.cpp:402-409): appended while
the 12-character cap is not reached. -/
def pushChar (st : String × ℤ) (c : ℤ) : String × ℤ :=
  if 32 ≤ c ∧ c ≤ 125 ∧ st.2 < 12 then (st.1.push (Char.ofNat c.toNat), st.2 + 1) else st

/-- Game-over screen update (main.cpp:399-415): drain the character queue into
the player name, then handle backspace. -/
def nameEntry (i : Input) (s : GameState) : GameState :=
  let st := i.chars.foldl pushChar (s.playerName, s.letterCount)
  if i.keyBackspace then
    let lc := max 0 (st.2 - 1)
    { s with playerName := st.1.take lc.toNat, letterCount := lc }
  else
    { s with playerName := st.1, letterCount := st.2 }

/-- The per-frame update switch over the current screen (main.cpp:203-416),
preceded by the shake/flash housekeeping.  `ui` is the `mouseOnUi` flag
computed from the pre-frame state. -/
def updatePhase (i : Input) (s : GameState) : GameState :=
  let ui := mouseOnUi i s
  let s0 := housekeeping i s
  match s0.screen with
  | GameScreen.startMenu =>
    if i.keyEnter then { s0 with screen := GameScreen.gameplay } else s0
  | GameScreen.guide =>
    if i.keyEscape || i.keyBackspace then { s0 with screen := GameScreen.startMenu } else s0
  | GameScreen.leaderboard =>
    if i.keyEscape || i.keyBackspace then { s0 with screen := GameScreen.startMenu } else s0
  | GameScreen.upgradeMenu => upgradeMenuUpdate i s0
  | GameScreen.gameplay => gameplayUpdate i ui s0
  | GameScreen.gameOver => nameEntry i s0

/-- The game-over REBOOT reset (main.cpp:558-563): restores score, currency,
wave counter, pulse charges, core health, all six entity collections, tower
limit, fire rate, wave-active flag, unlock and pending-notification flags, and
returns to gameplay.  (Fields not listed in the source are untouched.) -/
def rebootReset (s : GameState) : GameState :=
  { s with score := 0, currency := 0, currentWave := 0, pulseWaveCharges := 0,
           coreHealth := s.maxCoreHealth,
           towers := [], enemies := [], lasers := [], powerups := [],
           particles := [], notifications := [],
           maxTowers := 3, towerFireRate := 4/5,
           screen := GameScreen.gameplay, waveActive := false,
           cryoUnlocked := false, teslaUnlocked := false,
           pendingCryoNotify := false, pendingTeslaNotify := false }

/-- Starting a wave (main.cpp:501-503): increment the wave counter, activate
the wave, set the spawn queue to `7 + 5*wave`, and queue a boss on every tenth
wave. -/
def startWave (s : GameState) : GameState :=
  let w := s.currentWave + 1
  { s with currentWave := w,
           waveActive := true,
           enemiesToSpawn := 7 + w * 5,
           bossInQueue := if w % 10 = 0 then true else s.bossInQueue }

/-- Cost of the next node slot (main.cpp:509): `400 + (maxTowers-3)*350`. -/
def slotCost (s : GameState) : ℤ :=
  400 + (s.maxTowers - 3) * 350

/-- Cost of the next fire-rate overclock (main.cpp:509):
`600 + (int)((0.8 - towerFireRate) * 10000)`. -/
def fireCost (s : GameState) : ℤ :=
  600 + cTrunc ((4/5 - s.towerFireRate) * 10000)

/-- "BUY NODE SLOT" purchase (main.cpp:510-515): guarded by currency; debits
the slot cost, raises the tower limit, and unlocks Cryo at 5 slots and Tesla
at 7. -/
def buySlot (s : GameState) : GameState :=
  if slotCost s ≤ s.currency then
    let mt := s.maxTowers + 1
    let s1 : GameState := { s with currency := s.currency - slotCost s, maxTowers := mt }
    let s2 : GameState := if mt = 5 ∧ s1.cryoUnlocked = false then
        { s1 with cryoUnlocked := true, pendingCryoNotify := true } else s1
    if mt = 7 ∧ s2.teslaUnlocked = false then
      { s2 with teslaUnlocked := true, pendingTeslaNotify := true } else s2
  else s

/-- "PULSE CHARGE (300)" purchase (main.cpp:516). -/
def buyPulse (s : GameState) : GameState :=
  if 300 ≤ s.currency then
    { s with currency := s.currency - 300, pulseWaveCharges := s.pulseWaveCharges + 1 }
  else s

/-- "OVERCLOCK FIRE" purchase (main.cpp:517): debits the listed cost and
multiplies the fire interval by 0.85. -/
def buyOverclock (s : GameState) : GameState :=
  if fireCost s ≤ s.currency then
    { s with currency := s.currency - fireCost s, towerFireRate := s.towerFireRate * (17/20) }
  else s

/-- "CORE REPAIR (450)" purchase (main.cpp:518): requires 450 currency *and*
missing core health; repairs by 6 capped at the maximum. -/
def buyRepair (s : GameState) : GameState :=
  if 450 ≤ s.currency ∧ s.coreHealth < s.maxCoreHealth then
    { s with currency := s.currency - 450,
             coreHealth := min (s.coreHealth + 6) s.maxCoreHealth }
  else s

/-- The two build-phase footer buttons (main.cpp:500-503), processed in order. -/
def footerButtons (i : Input) (s : GameState) : GameState :=
  let s1 := if clicked i armoryRect then { s with screen := GameScreen.upgradeMenu } else s
  if clicked i startWaveRect then startWave s1 else s1

/-- The four armory purchase buttons (main.cpp:510-518), processed in order. -/
def armoryButtons (i : Input) (s : GameState) : GameState :=
  let s1 := if clicked i buySlotRect then buySlot s else s
  let s2 := if clicked i buyPulseRect then buyPulse s1 else s1
  let s3 := if clicked i buyFireRect then buyOverclock s2 else s2
  if clicked i buyRepairRect then buyRepair s3 else s3

/-- State mutations of the render pass (main.cpp:418-565): the buttons drawn
this frame, dispatched on the screen value left by the update pass.  Note that
the footer's armory click switches the screen to the armory *within* this pass,
so the purchase buttons are checked against the updated screen, exactly as the
source's sequential `if` chain does. -/
def renderPhase (i : Input) (s : GameState) : GameState :=
  if s.screen = GameScreen.startMenu then
    let s1 := if clicked i bootRect
      then { s with screen := GameScreen.gameplay, waveActive := false } else s
    let s2 := if clicked i lbRect then { s1 with screen := GameScreen.leaderboard } else s1
    if clicked i guideRect then { s2 with screen := GameScreen.guide } else s2
  else if s.screen = GameScreen.guide ∨ s.screen = GameScreen.leaderboard then
    if clicked i returnRect then { s with screen := GameScreen.startMenu } else s
  else if s.screen = GameScreen.gameplay ∨ s.screen = GameScreen.upgradeMenu then
    let s1 := if s.screen = GameScreen.gameplay ∧ s.waveActive = false ∧ s.enemies = []
      then footerButtons i s else s
    if s1.screen = GameScreen.upgradeMenu then armoryButtons i s1 else s1
  else if s.screen = GameScreen.gameOver then
    let s1 := if s.scoreSaved = false ∧ clicked i saveRect = true
      then { s with scoreSaved := true } else s
    if clicked i rebootRect then rebootReset s1 else s1
  else s

/-- One whole frame of the game loop (main.cpp:185-566): the update pass
followed by the render pass's button mutations. -/
def frameStep (s : GameState) (i : Input) : GameState :=
  renderPhase i (updatePhase i s)

/-- Run a sequence of frames. -/
def runFrames : GameState → List Input → GameState
  | s, [] => s
  | s, i :: r => runFrames (frameStep s i) r

/-- Contract of the per-frame external input: the frame delta is nonnegative
and the side-count draw respects the `GetRandomValue(3, min(10, 3 + wave/2))`
range (main.cpp:275). -/
def ValidInput (i : Input) : Prop :=
  0 ≤ i.dt ∧ 3 ≤ i.spawnSides ∧ i.spawnSides ≤ 10

instance (i : Input) : Decidable (ValidInput i) :=
  inferInstanceAs (Decidable (0 ≤ i.dt ∧ 3 ≤ i.spawnSides ∧ i.spawnSides ≤ 10))

/-- A state is reachable when some finite sequence of valid frames produces it
from the initial state. -/
def Reachable (s : GameState) : Prop :=
  ∃ l : List Input, (∀ i ∈ l, ValidInput i) ∧ runFrames initState l = s

/-- A quiet baseline frame input: a small 0.1s frame, no keys, no clicks, and
in-contract oracle values (spawn direction due east, side-count draw 3, enemies
approach the core from the east so their unit direction is `(-1,0)`). -/
def idleInput : Input where
  dt := 1/10
  mousePos := ⟨0, 0⟩
  mousePressed := false
  keyEnter := false
  keyEscape := false
  keyBackspace := false
  keyU := false
  keySpace := false
  keyOne := false
  keyTwo := false
  keyThree := false
  chars := []
  spawnAngleDir := ⟨1, 0⟩
  spawnSides := 3
  bossAngleDir := ⟨1, 0⟩
  moveDir := fun _ => ⟨-1, 0⟩
  dropRoll := fun _ => 50
  dropType := fun _ => PowerType.heal
  burstVel := fun _ _ => ⟨0, 0⟩
  healOffset := fun _ => ⟨0, 0⟩
  particleDir := fun _ => ⟨0, 0⟩
  sparkRoll := fun _ => 1
  sparkOffset := fun _ => ⟨1, 0⟩

/-- Press Enter on the start menu. -/
def enterInput : Input := { idleInput with keyEnter := true }

/-- Click the START WAVE footer button. -/
def startWaveInput : Input :=
  { idleInput with mousePos := ⟨1100, 660⟩, mousePressed := true }

/-- A long 5s frame during which a wave-1 or wave-2 enemy spawned on the
eastern ring point travels all the way to the core. -/
def bigFrame : Input := { idleInput with dt := 5 }

/-- A 2s frame: one spawn, no arrival. -/
def twoFrame : Input := { idleInput with dt := 2 }

/-- A 1.1s frame: below the wave-2 spawn interval of 1.13s, so no spawn. -/
def lateFrame : Input := { idleInput with dt := 11/10 }

/-- Click the REBOOT SYSTEM button on the game-over screen. -/
def rebootInput : Input :=
  { idleInput with mousePos := ⟨500, 610⟩, mousePressed := true }

/-- Frame trace driving the game from boot to the game-over screen: wave 1's
twelve enemies all reach the core (12 damage), wave 2's first seven do the same
(19 total), then two more spawn in flight and the first of them lands the 20th
hit during a 1.1s frame in which no spawn occurs — so the game-over state keeps
a nonzero spawn timer, an active wave, a nonempty spawn queue and an enemy in
flight. -/
def gameOverTrace : List Input :=
  [enterInput, startWaveInput]
    ++ List.replicate 12 bigFrame
    ++ [startWaveInput]
    ++ List.replicate 7 bigFrame
    ++ [twoFrame, twoFrame, lateFrame]

/-- The state on the game-over screen reached by `gameOverTrace`. -/
def gameOverState : GameState := runFrames initState gameOverTrace

/-- A 1s frame. -/
def oneFrame : Input := { idleInput with dt := 1 }

/-- A 0.5s frame. -/
def halfFrame : Input := { idleInput with dt := 1/2 }

/-- A 5s frame whose mouse sits on the START WAVE button with the button
pressed. -/
def bigStartWave : Input :=
  { bigFrame with mousePos := ⟨1100, 660⟩, mousePressed := true }

/-- The state just before the last enemy of wave 1 spawns and dies:
eleven of wave 1's twelve enemies have spawned and reached the core. -/
def preRestartState : GameState :=
  runFrames initState ([enterInput, startWaveInput] ++ List.replicate 11 bigFrame)

/-- Click placing a tower at `(0, 300)`. -/
def placeTowerA : Input := { idleInput with mousePos := ⟨0, 300⟩, mousePressed := true }

/-- Click placing a tower at `(0, 420)`. -/
def placeTowerB : Input := { idleInput with mousePos := ⟨0, 420⟩, mousePressed := true }

/-- A 1.2s frame spawning an enemy on the western ring point `(-210, 360)`,
which then approaches the core eastward (unit direction `(1,0)`). -/
def spawnWest : Input :=
  { idleInput with dt := 6/5, spawnAngleDir := ⟨-1, 0⟩, moveDir := fun _ => ⟨1, 0⟩ }

/-- A 0.85s frame with the westward-spawned enemy still approaching. -/
def chaseFrame : Input := { idleInput with dt := 17/20, moveDir := fun _ => ⟨1, 0⟩ }

/-- A short 0.1s frame with the westward-spawned enemy still approaching. -/
def shortChaseFrame : Input := { idleInput with dt := 1/10, moveDir := fun _ => ⟨1, 0⟩ }

/-- Frame trace for the combat-kill scenario: two standard towers at `(0,300)`
and `(0,420)` are placed, wave 1 starts, one enemy spawns at `(-210,360)` and
takes two shots per frame; on the second combat frame its health crosses zero. -/
def combatTrace : List Input :=
  [enterInput, placeTowerA, placeTowerB, startWaveInput, spawnWest, chaseFrame]

/-- The state at the end of the frame in which tower fire brought the enemy's
health below zero. -/
def combatKillState : GameState := runFrames initState combatTrace

/-- Targeting rule as the specification words it, for comparison with
`acquireTarget`: the *living* (active) enemy of minimum distance among those at
distance *at most* the tower range, ties broken by first-found. -/
def specTargetAux (tpos : V2) (range2 : ℚ) : List Enemy → ℕ → Option (ℕ × ℚ) → Option (ℕ × ℚ)
  | [], _, best => best
  | e :: r, idx, best =>
    let d := dist2 tpos e.position
    if e.active = true ∧ d ≤ range2 ∧ (∀ b ∈ best, d < b.2)
    then specTargetAux tpos range2 r (idx + 1) (some (idx, d))
    else specTargetAux tpos range2 r (idx + 1) best

/-- Entry point of the specification-worded targeting rule. -/
def specTarget (tpos : V2) (range2 : ℚ) (es : List Enemy) : Option ℕ :=
  (specTargetAux tpos range2 es 0 none).map (fun b => b.1)

/-- A tower position used in the targeting scenarios. -/
def c6Tower : V2 := ⟨200, 100⟩

/-- An enemy already marked inactive sitting 10px from `c6Tower`. -/
def c6Dead : Enemy := ⟨⟨210, 100⟩, 100, 3, -1/2, 18/5, false, 22, 0⟩

/-- A living enemy sitting at exactly the tower range (230px) from `c6Tower`. -/
def c6Live : Enemy := ⟨⟨430, 100⟩, 100, 3, 2, 18/5, true, 22, 0⟩

/-- Variant of `shortChaseFrame` whose drop roll succeeds, so the killed enemy
drops an Overdrive power-up. -/
def dropChaseFrame : Input :=
  { shortChaseFrame with dropRoll := fun _ => 1, dropType := fun _ => PowerType.overdrive }

/-- Frame trace leaving a dropped power-up on the field at the instant wave 1
ends: eleven enemies reach the core, the twelfth is shot down by two towers and
drops a power-up in the very frame the wave completes, so the power-up enters
the build phase with its full 10s timer. -/
def powerupDemoTrace : List Input :=
  [enterInput, placeTowerA, placeTowerB, startWaveInput]
    ++ List.replicate 11 bigFrame
    ++ [spawnWest, chaseFrame, dropChaseFrame]

/-- The build-phase state holding one freshly dropped power-up. -/
def powerupDemoState : GameState := runFrames initState powerupDemoTrace

/-- Placeholder power-up used as a `getD` default. -/
def emptyPowerUp : PowerUp := ⟨⟨0, 0⟩, PowerType.emp, 0, false, 0⟩

/-- The surviving power-up after one further idle build-phase frame. -/
def c8After : PowerUp :=
  ((frameStep powerupDemoState idleInput).powerups).getD 0 emptyPowerUp

/-- A state with an active wave and one pulse charge, used to exercise the
pulse branch. -/
def sPulseDemo : GameState :=
  { initState with pulseWaveCharges := 1, waveActive := true }

/-- A frame pressing the space bar. -/
def spaceInput : Input := { idleInput with keySpace := true }

/-- A state with an active wave, an empty spawn queue, no boss and no enemies,
used to exercise the wave-completion check. -/
def c5Demo : GameState := { initState with waveActive := true }

/-- A tower at `c6Tower` whose shoot timer has reached its interval. -/
def c6ReadyTower : Tower := ⟨c6Tower, 4/5, TowerType.standard⟩

/-- A tower-loop accumulator holding only the at-range living enemy. -/
def c6Acc : TowerAcc := ⟨[], [c6Live], [], []⟩

/-- A state with ample currency and a damaged core, used to exercise the
armory purchases. -/
def c10Rich : GameState := { initState with currency := 1000, coreHealth := 10 }

/-- `ps` is drawn from `qs`: every power-up of `ps` matches one of `qs` in
countdown timer, type and position (only the rotation may differ). -/
def PowsFrom (ps qs : List PowerUp) : Prop :=
  ∀ p ∈ ps, ∃ q ∈ qs, p.timer = q.timer ∧ p.ptype = q.ptype ∧ p.position = q.position

/-- Every state along the frame trace keeps the wave inactive. -/
def AllCalm : GameState → List Input → Prop
  | _, [] => True
  | s, i :: r => s.waveActive = false ∧ AllCalm (frameStep s i) r

/-- Well-formedness of one enemy record: at least 3 sides, and an enemy at
nonpositive health is marked inactive. -/
def EnemyOk (e : Enemy) : Prop :=
  3 ≤ e.sides ∧ (e.health ≤ 0 → e.active = false)

instance (e : Enemy) : Decidable (EnemyOk e) :=
  inferInstanceAs (Decidable (3 ≤ e.sides ∧ (e.health ≤ 0 → e.active = false)))

/-- The projections of a `GameState` that the invariant `SimInv` reads. -/
def simKernel (s : GameState) :
    ℤ × ℤ × ℤ × ℤ × ℤ × ℤ × Bool × List Enemy × GameScreen :=
  (s.pulseWaveCharges, s.currency, s.enemiesToSpawn, s.currentWave,
   s.coreHealth, s.maxCoreHealth, s.waveActive, s.enemies, s.screen)

/-- The reachability invariant of the simulation: counters are nonnegative,
core health never exceeds its maximum, the enemy collection is empty outside an
active wave and on the menu screens, every enemy has at least 3 sides, and an
enemy at nonpositive health is always marked inactive. -/
def SimInv (s : GameState) : Prop :=
  0 ≤ s.pulseWaveCharges ∧
  0 ≤ s.currency ∧
  0 ≤ s.enemiesToSpawn ∧
  0 ≤ s.currentWave ∧
  s.coreHealth ≤ s.maxCoreHealth ∧
  (s.waveActive = false → s.enemies = []) ∧
  (∀ e ∈ s.enemies, EnemyOk e) ∧
  ((s.screen = GameScreen.startMenu ∨ s.screen = GameScreen.guide ∨
    s.screen = GameScreen.leaderboard) → s.waveActive = false ∧ s.enemies = [])

set_option maxRecDepth 100000 in
/-- C1 counterexample: starting wave 1 initializes `enemiesToSpawn` to
`7 + 5*1 = 12`, not 7 as the claim states (main.cpp:502 increments the wave
counter before applying the formula). -/
theorem c1_wave1_counterexample :
    (runFrames initState [enterInput, startWaveInput]).currentWave = 1 ∧
    (runFrames initState [enterInput, startWaveInput]).waveActive = true ∧
    (runFrames initState [enterInput, startWaveInput]).enemiesToSpawn = 12 ∧
    (runFrames initState [enterInput, startWaveInput]).enemiesToSpawn ≠ 7 := by
  with_unfolding_all decide

set_option maxRecDepth 100000 in
/-- C1 (amended): wave 1 starts with `enemiesToSpawn = 12` (the `7 + 5*wave`
formula at wave 1) and a spawn interval of 1.19s; no enemy spawns while the
elapsed active time is at most 1.19s (1s here), and once it strictly exceeds
1.19s (1.5s here) exactly one enemy has spawned and `enemiesToSpawn = 11`. -/
theorem c1_wave1_spawn_schedule :
    spawnRate 1 = 119/100 ∧
    (runFrames initState [enterInput, startWaveInput]).enemiesToSpawn = 12 ∧
    (runFrames initState [enterInput, startWaveInput, oneFrame]).enemies.length = 0 ∧
    (runFrames initState [enterInput, startWaveInput, oneFrame]).enemiesToSpawn = 12 ∧
    (runFrames initState [enterInput, startWaveInput, oneFrame, halfFrame]).enemies.length = 1 ∧
    (runFrames initState [enterInput, startWaveInput, oneFrame, halfFrame]).enemiesToSpawn = 11 := by
  with_unfolding_all decide

set_option maxRecDepth 100000 in
/-- C2 counterexample: a reachable game-over state with `spawnTimer = 1.1`
remains at `spawnTimer = 1.1` after the REBOOT click, although the reset did
run (screen back to gameplay, score zeroed) — so the reset does not restore the
spawn timer to its initial value 0. -/
theorem c2_reboot_counterexample :
    gameOverState.screen = GameScreen.gameOver ∧
    gameOverState.spawnTimer = 11/10 ∧
    (frameStep gameOverState rebootInput).screen = GameScreen.gameplay ∧
    (frameStep gameOverState rebootInput).score = 0 ∧
    (frameStep gameOverState rebootInput).spawnTimer = 11/10 ∧
    (frameStep gameOverState rebootInput).spawnTimer ≠ initState.spawnTimer := by
  with_unfolding_all decide

/-- C2 (amended): the REBOOT reset restores score, currency, wave counter,
pulse charges, core health, all six entity collections, the tower limit, fire
rate, wave-active flag and the unlock/pending flags — but leaves the EMP and
Overdrive timers, the boss-queued flag, the spawn timer and the selected tower
type untouched. -/
theorem c2_reboot_reset (s : GameState) :
    (rebootReset s).score = 0 ∧ (rebootReset s).currency = 0 ∧
    (rebootReset s).currentWave = 0 ∧ (rebootReset s).pulseWaveCharges = 0 ∧
    (rebootReset s).coreHealth = s.maxCoreHealth ∧
    (rebootReset s).towers = [] ∧ (rebootReset s).enemies = [] ∧
    (rebootReset s).lasers = [] ∧ (rebootReset s).powerups = [] ∧
    (rebootReset s).particles = [] ∧ (rebootReset s).notifications = [] ∧
    (rebootReset s).maxTowers = 3 ∧ (rebootReset s).towerFireRate = 4/5 ∧
    (rebootReset s).waveActive = false ∧
    (rebootReset s).cryoUnlocked = false ∧ (rebootReset s).teslaUnlocked = false ∧
    (rebootReset s).pendingCryoNotify = false ∧ (rebootReset s).pendingTeslaNotify = false ∧
    (rebootReset s).screen = GameScreen.gameplay ∧
    (rebootReset s).empTimer = s.empTimer ∧
    (rebootReset s).overdriveTimer = s.overdriveTimer ∧
    (rebootReset s).bossInQueue = s.bossInQueue ∧
    (rebootReset s).spawnTimer = s.spawnTimer ∧
    (rebootReset s).currentSelection = s.currentSelection := by
  refine ⟨rfl, rfl, rfl, rfl, rfl, rfl, rfl, rfl, rfl, rfl, rfl, rfl,
    rfl, rfl, rfl, rfl, rfl, rfl, rfl, rfl, rfl, rfl, rfl, rfl⟩

/-- C4 counterexample: with Overdrive running (timer 1 > 0) and base fire rate
0.8, a Standard tower's effective interval is 0.05 but a Cryo tower's is 0.075
— the per-type multiplier still applies, so the interval is not one fixed value
for every type. -/
theorem c4_overdrive_rate_counterexample :
    effRate 1 (4/5) TowerType.standard = 1/20 ∧
    effRate 1 (4/5) TowerType.cryo = 3/40 ∧
    effRate 1 (4/5) TowerType.cryo ≠ effRate 1 (4/5) TowerType.standard := by
  with_unfolding_all decide

/-- C4 (amended): while the Overdrive timer is positive, every tower's
effective interval is independent of the base fire rate, with the Standard type
at the fixed 0.05 and the Cryo/Tesla types at 0.075 (the 1.5 per-type
multiplier still applies). -/
theorem c4_overdrive_rate (od fr fr' : ℚ) (ty : TowerType) (h : 0 < od) :
    effRate od fr TowerType.standard = 1/20 ∧
    effRate od fr TowerType.cryo = 3/40 ∧
    effRate od fr TowerType.tesla = 3/40 ∧
    effRate od fr ty = effRate od fr' ty := by
  refine ⟨?_, ?_, ?_, ?_⟩
  · simp [effRate, h]
  · simp [effRate, h]; norm_num
  · simp [effRate, h]; norm_num
  · cases ty <;> simp [effRate, h]

/-- C4 witness: the amended overdrive-rate theorem applied at timer 1, base
rates 0.8 and 2, for a Cryo tower. -/
theorem c4_overdrive_rate_witness :
    effRate 1 (4/5) TowerType.standard = 1/20 ∧
    effRate 1 (4/5) TowerType.cryo = 3/40 ∧
    effRate 1 (4/5) TowerType.tesla = 3/40 ∧
    effRate 1 (4/5) TowerType.cryo = effRate 1 2 TowerType.cryo :=
  c4_overdrive_rate 1 (4/5) 2 TowerType.cryo (by norm_num)

set_option maxRecDepth 100000 in
/-- C5 counterexample: (left) a reachable game-over state with an active wave,
`enemiesToSpawn = 8` and an enemy still in flight is turned wave-inactive by
the REBOOT click, violating the stated transition condition; (right) a frame in
which the wave stays active at both boundaries but `enemiesToSpawn` rises from
1 to 17, because the last enemy dies and the START WAVE button is clicked
within the same frame — violating monotonicity. -/
theorem c5_wave_transition_counterexample :
    (gameOverState.waveActive = true ∧
     gameOverState.enemiesToSpawn = 8 ∧
     gameOverState.enemies ≠ [] ∧
     (frameStep gameOverState rebootInput).waveActive = false) ∧
    (preRestartState.waveActive = true ∧
     (frameStep preRestartState bigStartWave).waveActive = true ∧
     preRestartState.enemiesToSpawn = 1 ∧
     (frameStep preRestartState bigStartWave).enemiesToSpawn = 17) := by
  with_unfolding_all decide

set_option maxRecDepth 100000 in
/-- C7 counterexample: at the end of the frame in which tower fire drove the
enemy's health below zero, the enemy is still in the collection (marked
inactive) and no currency has been awarded; the removal and the award happen in
the *next* frame's sweep — combat resolution runs after the sweep, so removal
of combat kills is deferred to the following frame, not to the same frame as
the claim states. -/
theorem c7_deferred_removal_counterexample :
    combatKillState.enemies.length = 1 ∧
    (∀ e ∈ combatKillState.enemies, e.active = false ∧ e.health ≤ 0) ∧
    combatKillState.currency = 0 ∧
    (frameStep combatKillState shortChaseFrame).enemies = [] ∧
    (frameStep combatKillState shortChaseFrame).currency = 62 := by
  with_unfolding_all decide

set_option maxRecDepth 100000 in
/-- C6 counterexample: the target scan ignores the `active` flag and uses a
strict range comparison.  With an inactive enemy 10px away and a living enemy
at exactly the 230px range, the code targets the inactive one (index 0) while
the claim's rule picks the living one (index 1); with only the living enemy at
exactly range, the code finds no target although the claim's "at most the
range" rule would fire. -/
theorem c6_targeting_counterexample :
    acquireTarget c6Tower (230*230) [c6Dead, c6Live] = some 0 ∧
    c6Dead.active = false ∧
    dist2 c6Tower c6Live.position = 230*230 ∧
    c6Live.active = true ∧
    acquireTarget c6Tower (230*230) [c6Live] = none ∧
    specTarget c6Tower (230*230) [c6Dead, c6Live] = some 1 ∧
    specTarget c6Tower (230*230) [c6Live] = some 0 := by
  with_unfolding_all exact ⟨rfl, rfl, rfl, rfl, rfl, rfl, rfl⟩

/-- Transport of the invariant along equal kernels. -/
theorem simInv_congr {s t : GameState} (h : simKernel t = simKernel s) :
    SimInv s → SimInv t := by
  unfold simKernel at h
  simp only [Prod.mk.injEq] at h
  obtain ⟨e1, e2, e3, e4, e5, e6, e7, e8, e9⟩ := h
  unfold SimInv
  rw [e1, e2, e3, e4, e5, e6, e7, e8, e9]
  exact id

/-- The shake/flash housekeeping does not touch the invariant kernel. -/
theorem simKernel_housekeeping (i : Input) (s : GameState) :
    simKernel (housekeeping i s) = simKernel s := by
  unfold housekeeping simKernel
  dsimp only
  split_ifs <;> rfl

/-- Tower-type selection does not touch the invariant kernel. -/
theorem simKernel_selectKeys (i : Input) (s : GameState) :
    simKernel (selectKeys i s) = simKernel s := by
  unfold selectKeys simKernel
  dsimp only
  split_ifs <;> rfl

/-- The laser sweep does not touch the invariant kernel. -/
theorem simKernel_lasersPhase (i : Input) (s : GameState) :
    simKernel (lasersPhase i s) = simKernel s := rfl

/-- The power-up sweep does not touch the invariant kernel. -/
theorem simKernel_powerupsPhase (i : Input) (s : GameState) :
    simKernel (powerupsPhase i s) = simKernel s := rfl

/-- The particle sweep does not touch the invariant kernel. -/
theorem simKernel_particlesPhase (i : Input) (s : GameState) :
    simKernel (particlesPhase i s) = simKernel s := rfl

/-- The notification sweep does not touch the invariant kernel. -/
theorem simKernel_notifsPhase (i : Input) (s : GameState) :
    simKernel (notifsPhase i s) = simKernel s := rfl

/-- The ring visuals do not touch the invariant kernel. -/
theorem simKernel_visualsPhase (i : Input) (s : GameState) :
    simKernel (visualsPhase i s) = simKernel s := by
  unfold visualsPhase simKernel
  dsimp only
  split_ifs <;> rfl

/-- The EMP/Overdrive timer ticks do not touch the invariant kernel. -/
theorem simKernel_abilityTimersPhase (i : Input) (s : GameState) :
    simKernel (abilityTimersPhase i s) = simKernel s := by
  unfold abilityTimersPhase simKernel
  dsimp only
  split_ifs <;> rfl

/-- Name entry does not touch the invariant kernel. -/
theorem simKernel_nameEntry (i : Input) (s : GameState) :
    simKernel (nameEntry i s) = simKernel s := by
  unfold nameEntry simKernel
  dsimp only
  split_ifs <;> rfl

/-- Pulse damage does not change an enemy's side count. -/
theorem pulseHit_sides (e : Enemy) : (pulseHit e).sides = e.sides := by
  unfold pulseHit
  dsimp only
  split_ifs <;> rfl

/-- Pulse damage preserves enemy well-formedness: a hit that brings health to
zero or below also marks the enemy inactive. -/
theorem pulseHit_ok (e : Enemy) (h : EnemyOk e) : EnemyOk (pulseHit e) := by
  obtain ⟨hs, hh⟩ := h
  by_cases hd : dist2 corePos e.position < 202500
  · by_cases hl : e.health - (500 - ratSqrt (dist2 corePos e.position)) / 5 ≤ 0
    · refine ⟨by simpa [pulseHit, hd] using hs, ?_⟩
      intro _
      simp [pulseHit, hd, hl]
    · refine ⟨by simpa [pulseHit, hd] using hs, ?_⟩
      intro hle
      simp only [pulseHit, if_pos hd] at hle
      exact absurd hle hl
  · simpa [pulseHit, hd] using ⟨hs, hh⟩

/-- Picking up a power-up preserves the invariant (the Heal effect is capped at
the maximum core health). -/
theorem simInv_applyPickup (i : Input) (idx : ℕ) (p : PowerUp) (s : GameState)
    (h : SimInv s) : SimInv (applyPickup i idx p s) := by
  obtain ⟨h1, h2, h3, h4, h5, h6, h7, h8⟩ := h
  unfold applyPickup SimInv
  cases hp : p.ptype <;> dsimp only <;>
    exact ⟨h1, h2, h3, h4, by first | exact h5 | exact min_le_right _ _, h6, h7, h8⟩

/-- The click phase (power-up pickup or tower placement) preserves the
invariant. -/
theorem simInv_clickPhase (i : Input) (ui : Bool) (s : GameState)
    (h : SimInv s) : SimInv (clickPhase i ui s) := by
  by_cases hc : (i.mousePressed && !ui) = true
  · cases hf : findPickup i.mousePos s.powerups 0 with
    | none =>
      by_cases hp : ((s.towers.length : ℤ) < s.maxTowers ∧ 7225 < dist2 i.mousePos corePos)
      · have he : clickPhase i ui s
            = { s with towers := s.towers ++ [⟨i.mousePos, 0, s.currentSelection⟩] } := by
          simp [clickPhase, hc, hf, hp]
        rw [he]
        exact simInv_congr rfl h
      · have he : clickPhase i ui s = s := by simp [clickPhase, hc, hf, hp]
        rw [he]
        exact h
    | some v =>
      obtain ⟨idx, pp⟩ := v
      have he : clickPhase i ui s = applyPickup i idx pp s := by simp [clickPhase, hc, hf]
      rw [he]
      exact simInv_applyPickup i idx pp s h
  · have he : clickPhase i ui s = s := by simp [clickPhase, hc]
    rw [he]
    exact h

/-- The Pulse activation preserves the invariant: the guard keeps the charge
count nonnegative and the damage map keeps every enemy well formed. -/
theorem simInv_pulsePhase (i : Input) (pt : Bool) (s : GameState)
    (h : SimInv s) : SimInv (pulsePhase i pt s) := by
  obtain ⟨h1, h2, h3, h4, h5, h6, h7, h8⟩ := h
  unfold pulsePhase
  split_ifs with hf
  · have hg : 0 < s.pulseWaveCharges ∧ s.waveActive = true := by
      unfold pulseFires at hf
      simp only [Bool.and_eq_true, decide_eq_true_eq] at hf
      exact ⟨hf.1.2, hf.2⟩
    unfold SimInv
    dsimp only
    refine ⟨by omega, h2, h3, h4, h5, ?_, ?_, ?_⟩
    · rw [hg.2]
      intro hw
      exact absurd hw (by simp)
    · intro e' he'
      simp only [List.mem_map] at he'
      obtain ⟨e, he, rfl⟩ := he'
      exact pulseHit_ok e (h7 e he)
    · intro hm
      exact absurd (h8 hm).1 (by simp [hg.2])
  · exact ⟨h1, h2, h3, h4, h5, h6, h7, h8⟩

/-- A freshly spawned regular enemy is well formed when the side-count draw
respects its contract. -/
theorem newEnemy_ok (i : Input) (wave : ℤ) (hv : ValidInput i) (hw : 0 ≤ wave) :
    EnemyOk (newEnemy i wave) := by
  obtain ⟨-, hs, hs10⟩ := hv
  refine ⟨hs, ?_⟩
  intro hh
  exfalso
  unfold newEnemy at hh
  dsimp only at hh
  have h3 : (3 : ℚ) ≤ (i.spawnSides : ℚ) := by exact_mod_cast hs
  have h10 : (i.spawnSides : ℚ) ≤ 10 := by exact_mod_cast hs10
  have hwq : (0 : ℚ) ≤ (wave : ℚ) := by exact_mod_cast hw
  have hmin : (1 : ℚ) ≤ min (8/5 : ℚ) (1 + (wave : ℚ) * (7/200)) :=
    le_min (by norm_num) (by nlinarith)
  nlinarith

/-- The queued boss is well formed for a nonnegative wave counter. -/
theorem newBoss_ok (i : Input) (wave : ℤ) (hw : 0 ≤ wave) :
    EnemyOk (newBoss i wave) := by
  refine ⟨by norm_num [newBoss], ?_⟩
  intro hh
  exfalso
  unfold newBoss at hh
  dsimp only at hh
  have hwq : (0 : ℚ) ≤ (wave : ℚ) := by exact_mod_cast hw
  nlinarith

/-- The spawn scheduler preserves the invariant. -/
theorem simInv_spawnPhase (i : Input) (s : GameState) (hv : ValidInput i)
    (h : SimInv s) : SimInv (spawnPhase i s) := by
  obtain ⟨h1, h2, h3, h4, h5, h6, h7, h8⟩ := h
  by_cases hw : s.waveActive = true
  · by_cases hspawn : (0 < s.enemiesToSpawn ∧ spawnRate s.currentWave < s.spawnTimer + i.dt)
    · unfold spawnPhase SimInv
      rw [if_pos hw, if_pos hspawn]
      dsimp only
      refine ⟨h1, h2, by omega, h4, h5, by simp [hw], ?_, ?_⟩
      · intro e he'
        rcases List.mem_append.mp he' with hm | hm
        · exact h7 e hm
        · simp only [List.mem_singleton] at hm
          subst hm
          exact newEnemy_ok i s.currentWave hv h4
      · intro hm
        exact absurd (h8 hm).1 (by simp [hw])
    · by_cases hboss : (s.enemiesToSpawn ≤ 0 ∧ s.bossInQueue = true ∧ (9/5 : ℚ) < s.spawnTimer + i.dt)
      · unfold spawnPhase SimInv
        rw [if_pos hw, if_neg hspawn, if_pos hboss]
        dsimp only
        refine ⟨h1, h2, h3, h4, h5, by simp [hw], ?_, ?_⟩
        · intro e he'
          rcases List.mem_append.mp he' with hm | hm
          · exact h7 e hm
          · simp only [List.mem_singleton] at hm
            subst hm
            exact newBoss_ok i s.currentWave h4
        · intro hm
          exact absurd (h8 hm).1 (by simp [hw])
      · unfold spawnPhase SimInv
        rw [if_pos hw, if_neg hspawn, if_neg hboss]
        dsimp only
        exact ⟨h1, h2, h3, h4, h5, by simp [hw], h7,
          fun hm => absurd (h8 hm).1 (by simp [hw])⟩
  · unfold spawnPhase
    rw [if_neg hw]
    exact ⟨h1, h2, h3, h4, h5, h6, h7, h8⟩

/-- The wave-completion check preserves the invariant. -/
theorem simInv_waveEndStep (s : GameState) (h : SimInv s) : SimInv (waveEndStep s) := by
  obtain ⟨h1, h2, h3, h4, h5, h6, h7, h8⟩ := h
  unfold waveEndStep
  by_cases hc : (s.waveActive = true ∧ s.enemiesToSpawn ≤ 0 ∧ s.bossInQueue = false ∧ s.enemies = [])
  · rw [if_pos hc]
    exact ⟨h1, h2, h3, h4, h5, fun _ => hc.2.2.2, h7, fun hm => ⟨rfl, hc.2.2.2⟩⟩
  · rw [if_neg hc]
    exact ⟨h1, h2, h3, h4, h5, h6, h7, h8⟩

/-- The defeat check preserves the invariant. -/
theorem simInv_gameOverCheck (s : GameState) (h : SimInv s) : SimInv (gameOverCheck s) := by
  obtain ⟨h1, h2, h3, h4, h5, h6, h7, h8⟩ := h
  unfold gameOverCheck
  split_ifs with hc
  · refine ⟨h1, h2, h3, h4, h5, h6, h7, ?_⟩
    intro hm
    rcases hm with hm | hm | hm <;> simp at hm
  · exact ⟨h1, h2, h3, h4, h5, h6, h7, h8⟩

/-- The [U] armory key preserves the invariant. -/
theorem simInv_upgradeKey (i : Input) (s : GameState) (h : SimInv s) :
    SimInv (upgradeKey i s) := by
  obtain ⟨h1, h2, h3, h4, h5, h6, h7, h8⟩ := h
  unfold upgradeKey
  split_ifs with hc
  · refine ⟨h1, h2, h3, h4, h5, h6, h7, ?_⟩
    intro hm
    rcases hm with hm | hm | hm <;> simp at hm
  · exact ⟨h1, h2, h3, h4, h5, h6, h7, h8⟩

/-- The armory-screen update (dismissal and pending notifications) preserves
the invariant. -/
theorem simInv_upgradeMenuUpdate (i : Input) (s : GameState) (h : SimInv s) :
    SimInv (upgradeMenuUpdate i s) := by
  obtain ⟨h1, h2, h3, h4, h5, h6, h7, h8⟩ := h
  unfold upgradeMenuUpdate
  by_cases hk : (i.keyU || i.keyEnter) = true
  · rw [if_pos hk]
    dsimp only
    split_ifs <;>
      refine ⟨h1, h2, h3, h4, h5, h6, h7, ?_⟩ <;>
      · intro hm
        rcases hm with hm | hm | hm <;> simp at hm
  · rw [if_neg hk]
    exact ⟨h1, h2, h3, h4, h5, h6, h7, h8⟩

/-- Movement does not change an enemy's side count. -/
theorem moveEnemy_sides (i : Input) (eT : ℚ) (idx : ℕ) (e : Enemy) :
    (moveEnemy i eT idx e).sides = e.sides := by
  unfold moveEnemy
  split_ifs <;> rfl

/-- Movement does not change an enemy's health. -/
theorem moveEnemy_health (i : Input) (eT : ℚ) (idx : ℕ) (e : Enemy) :
    (moveEnemy i eT idx e).health = e.health := by
  unfold moveEnemy
  split_ifs <;> rfl

/-- Movement does not change an enemy's active flag. -/
theorem moveEnemy_active (i : Input) (eT : ℚ) (idx : ℕ) (e : Enemy) :
    (moveEnemy i eT idx e).active = e.active := by
  unfold moveEnemy
  split_ifs <;> rfl

/-- Movement preserves enemy well-formedness. -/
theorem moveEnemy_ok (i : Input) (eT : ℚ) (idx : ℕ) (e : Enemy) (h : EnemyOk e) :
    EnemyOk (moveEnemy i eT idx e) := by
  refine ⟨?_, ?_⟩
  · rw [moveEnemy_sides]; exact h.1
  · rw [moveEnemy_health, moveEnemy_active]; exact h.2

/-- The split replacements are well formed and spawned active. -/
theorem miniEnemy_ok (p : V2) : EnemyOk (miniEnemy p) ∧ (miniEnemy p).active = true := by
  refine ⟨⟨by norm_num [miniEnemy], ?_⟩, rfl⟩
  intro hh
  norm_num [miniEnemy] at hh

/-- One sweep iteration: the core health never rises, the currency never
falls, and kept/split enemies stay well formed and active. -/
theorem sweepEnemy_step (i : Input) (eT : ℚ) (idx : ℕ) (a : SweepAcc) (e : Enemy)
    (he : EnemyOk e) (ha : ∀ x ∈ a.kept ++ a.splits, EnemyOk x ∧ x.active = true) :
    (sweepEnemy i eT idx a e).coreHealth ≤ a.coreHealth ∧
    a.currency ≤ (sweepEnemy i eT idx a e).currency ∧
    (∀ x ∈ (sweepEnemy i eT idx a e).kept ++ (sweepEnemy i eT idx a e).splits,
      EnemyOk x ∧ x.active = true) := by
  unfold sweepEnemy
  have hmok : EnemyOk (moveEnemy i eT idx e) := moveEnemy_ok i eT idx e he
  by_cases h1 : dist2 (moveEnemy i eT idx e).position corePos < 2500
  · rw [if_pos h1]
    dsimp only
    exact ⟨by split_ifs <;> omega, le_refl _, ha⟩
  · rw [if_neg h1]
    by_cases h2 : (moveEnemy i eT idx e).active = false
    · rw [if_pos h2]
      dsimp only
      refine ⟨le_refl _, ?_, ?_⟩
      · have hs := hmok.1
        omega
      · intro x hx
        rcases List.mem_append.mp hx with hk | hs
        · exact ha x (List.mem_append.mpr (Or.inl hk))
        · rcases List.mem_append.mp hs with hs | hs
          · exact ha x (List.mem_append.mpr (Or.inr hs))
          · by_cases hsc : splitCond (moveEnemy i eT idx e) = true
            · rw [if_pos hsc] at hs
              unfold splitChildren at hs
              simp only [List.mem_cons, List.not_mem_nil, or_false] at hs
              rcases hs with h | h <;> exact h ▸ miniEnemy_ok _
            · rw [if_neg (by simpa using hsc)] at hs
              exact absurd hs (List.not_mem_nil x)
    · rw [if_neg h2]
      dsimp only
      refine ⟨le_refl _, le_refl _, ?_⟩
      intro x hx
      rcases List.mem_append.mp hx with hk | hs
      · rcases List.mem_append.mp hk with hk | hk
        · exact ha x (List.mem_append.mpr (Or.inl hk))
        · simp only [List.mem_singleton] at hk
          subst hk
          exact ⟨hmok, by revert h2; cases (moveEnemy i eT idx e).active <;> simp⟩
      · exact ha x (List.mem_append.mpr (Or.inr hs))

/-- The sweep loop: the core health never rises, the currency never falls, and
kept/split enemies stay well formed and active. -/
theorem sweepGo_master (i : Input) (eT : ℚ) :
    ∀ (es : List Enemy) (idx : ℕ) (a : SweepAcc),
    (∀ e ∈ es, EnemyOk e) →
    (∀ x ∈ a.kept ++ a.splits, EnemyOk x ∧ x.active = true) →
    ((sweepGo i eT idx a es).coreHealth ≤ a.coreHealth ∧
     a.currency ≤ (sweepGo i eT idx a es).currency ∧
     (∀ x ∈ (sweepGo i eT idx a es).kept ++ (sweepGo i eT idx a es).splits,
       EnemyOk x ∧ x.active = true)) := by
  intro es
  induction es with
  | nil => exact fun idx a _ ha => ⟨le_refl _, le_refl _, ha⟩
  | cons e r ih =>
    intro idx a hes ha
    have hstep := sweepEnemy_step i eT idx a e (hes e (by simp))
      ha
    have hrec := ih (idx + 1) (sweepEnemy i eT idx a e)
      (fun x hx => hes x (by simp [hx])) hstep.2.2
    exact ⟨le_trans hrec.1 hstep.1, le_trans hstep.2.1 hrec.2.1, hrec.2.2⟩

/-- The sweep pass on an empty enemy collection is the identity. -/
theorem sweepPhase_nil (i : Input) (s : GameState) (h : s.enemies = []) :
    sweepPhase i s = s := by
  have he : sweepPhase i s = { s with enemies := ([] : List Enemy) } := by
    unfold sweepPhase
    rw [h]
    rfl
  rw [he, ← h]

/-- The Lifecycle Sweeper pass preserves the invariant. -/
theorem simInv_sweepPhase (i : Input) (s : GameState) (h : SimInv s) :
    SimInv (sweepPhase i s) := by
  obtain ⟨h1, h2, h3, h4, h5, h6, h7, h8⟩ := h
  have hm := sweepGo_master i s.empTimer s.enemies 0
    ⟨[], [], s.coreHealth, s.currency, s.score, s.shakeIntensity,
     s.damageFlashTimer, s.powerups, s.particles⟩ h7 (by simp)
  unfold sweepPhase SimInv
  dsimp only
  refine ⟨h1, le_trans h2 hm.2.1, h3, h4, le_trans hm.1 h5, ?_, ?_, ?_⟩
  · intro hw
    rw [h6 hw]
    simp [sweepGo]
  · intro x hx
    exact (hm.2.2 x hx).1
  · intro hmn
    refine ⟨(h8 hmn).1, ?_⟩
    rw [(h8 hmn).2]
    simp [sweepGo]

/-- Index-wise relation describing what combat damage may do to the enemy
list: the length and each slot's side count are preserved, and the
dead-implies-inactive marking discipline is preserved slot by slot. -/
def ShotRel (es esB : List Enemy) : Prop :=
  esB.length = es.length ∧
  ∀ j e eB, es.get? j = some e → esB.get? j = some eB →
    eB.sides = e.sides ∧
      ((e.health ≤ 0 → e.active = false) → eB.health ≤ 0 → eB.active = false)

theorem shotRel_refl (es : List Enemy) : ShotRel es es := by
  refine ⟨rfl, fun j e eB h1 h2 => ?_⟩
  rw [h1] at h2
  injection h2 with h2
  subst h2
  exact ⟨rfl, fun h => h⟩

theorem shotRel_trans {a b c : List Enemy} (h1 : ShotRel a b) (h2 : ShotRel b c) :
    ShotRel a c := by
  refine ⟨h2.1.trans h1.1, fun j e eB ha hc => ?_⟩
  obtain ⟨hja, -⟩ := List.get?_eq_some.mp ha
  have hjb : j < b.length := by rw [h1.1]; exact hja
  have r1 := h1.2 j e _ ha (List.get?_eq_get hjb)
  have r2 := h2.2 j _ eB (List.get?_eq_get hjb) hc
  exact ⟨r2.1.trans r1.1, fun hok => r2.2 (r1.2 hok)⟩

theorem shotRel_set {es : List Enemy} {k : ℕ} {v c : Enemy}
    (hg : es.get? k = some c) (hsides : v.sides = c.sides)
    (hmark : (c.health ≤ 0 → c.active = false) →
      v.health ≤ 0 → v.active = false) :
    ShotRel es (es.set k v) := by
  refine ⟨List.length_set es k v, fun j e eB h1 h2 => ?_⟩
  by_cases hjk : j = k
  · subst hjk
    rw [h1] at hg
    injection hg with hg
    obtain ⟨hj, -⟩ := List.get?_eq_some.mp h1
    rw [List.get?_set_eq_of_lt v hj] at h2
    injection h2 with h2
    subst h2
    rw [hg]
    exact ⟨hsides, hmark⟩
  · rw [List.get?_set_ne v es (fun h => hjk h.symm)] at h2
    rw [h1] at h2
    injection h2 with h2
    subst h2
    exact ⟨rfl, fun h => h⟩

theorem shotRel_nil {es esB : List Enemy} (h : ShotRel es esB) (hn : es = []) :
    esB = [] := by
  subst hn
  exact List.length_eq_zero.mp h.1

theorem shotRel_ok {es esB : List Enemy} (h : ShotRel es esB)
    (hok : ∀ e ∈ es, EnemyOk e) : ∀ e ∈ esB, EnemyOk e := by
  intro eB heB
  obtain ⟨j, hj⟩ := List.mem_iff_get?.mp heB
  obtain ⟨hjB, -⟩ := List.get?_eq_some.mp hj
  have hjl : j < es.length := by rw [← h.1]; exact hjB
  have hje : es.get? j = some (es.get ⟨j, hjl⟩) := List.get?_eq_get hjl
  have r := h.2 j _ eB hje hj
  have hO := hok _ (List.get?_mem hje)
  exact ⟨by rw [r.1]; exact hO.1, r.2 hO.2⟩

theorem secondaryAux_ne (p : V2) (k : ℕ) :
    ∀ (l : List Enemy) (idx : ℕ) (best : Option ℕ) (bD : ℚ),
      (∀ x, best = some x → x ≠ k) →
      ∀ m, secondaryAux p k l idx best bD = some m → m ≠ k := by
  intro l
  induction l with
  | nil =>
    intro idx best bD hb m hm
    simp only [secondaryAux] at hm
    exact hb m hm
  | cons e r ih =>
    intro idx best bD hb m hm
    simp only [secondaryAux] at hm
    by_cases hik : idx = k
    · rw [if_pos hik] at hm
      exact ih (idx + 1) best bD hb m hm
    · rw [if_neg hik] at hm
      try dsimp only at hm
      by_cases hd : dist2 p e.position < bD
      · rw [if_pos hd] at hm
        refine ih (idx + 1) (some idx) _ (fun x hx => ?_) m hm
        injection hx with hx
        subst hx
        exact hik
      · rw [if_neg hd] at hm
        exact ih (idx + 1) best bD hb m hm

theorem acquireSecondary_ne (p : V2) (k : ℕ) (es : List Enemy) (m : ℕ)
    (h : acquireSecondary p k es = some m) : m ≠ k :=
  secondaryAux_ne p k es 0 none 40000 (fun _ hx => nomatch hx) m h

theorem towerShoot_rel (ty : TowerType) (tpos : V2) (k : ℕ) (es : List Enemy)
    (ls : List Laser) : ShotRel es (towerShoot ty tpos k es ls).1 := by
  unfold towerShoot
  cases hg : es.get? k with
  | none => exact shotRel_refl es
  | some tgt =>
    obtain ⟨hk, -⟩ := List.get?_eq_some.mp hg
    dsimp only
    cases ty with
    | standard =>
      rw [List.get?_set_eq_of_lt _ hk]
      dsimp only
      by_cases hd : tgt.health - (1 : ℚ) ≤ 0
      · rw [if_pos hd, List.set_set]
        exact shotRel_set hg rfl (fun _ _ => rfl)
      · rw [if_neg hd]
        exact shotRel_set hg rfl (fun _ h => absurd h hd)
    | cryo =>
      rw [List.get?_set_eq_of_lt _ hk]
      dsimp only
      by_cases hd : tgt.health - (1/2 : ℚ) ≤ 0
      · rw [if_pos hd, List.set_set]
        exact shotRel_set hg rfl (fun _ _ => rfl)
      · rw [if_neg hd]
        exact shotRel_set hg rfl (fun _ h => absurd h hd)
    | tesla =>
      cases hs : acquireSecondary tgt.position k
          (es.set k { tgt with health := tgt.health - 4/5 }) with
      | none =>
        try rw [hs]
        try dsimp only
        rw [List.get?_set_eq_of_lt _ hk]
        try dsimp only
        by_cases hd : tgt.health - (4/5 : ℚ) ≤ 0
        · rw [if_pos hd, List.set_set]
          exact shotRel_set hg rfl (fun _ _ => rfl)
        · rw [if_neg hd]
          exact shotRel_set hg rfl (fun _ h => absurd h hd)
      | some m =>
        have hmk : m ≠ k := acquireSecondary_ne _ _ _ _ hs
        try rw [hs]
        try dsimp only
        cases hgm : (es.set k { tgt with health := tgt.health - 4/5 }).get? m with
        | none =>
          try rw [hgm]
          try dsimp only
          rw [List.get?_set_eq_of_lt _ hk]
          dsimp only
          by_cases hd : tgt.health - (4/5 : ℚ) ≤ 0
          · rw [if_pos hd, List.set_set]
            exact shotRel_set hg rfl (fun _ _ => rfl)
          · rw [if_neg hd]
            exact shotRel_set hg rfl (fun _ h => absurd h hd)
        | some sec =>
          have hgm0 : es.get? m = some sec := by
            rw [List.get?_set_ne _ es (fun h => hmk h.symm)] at hgm
            exact hgm
          try rw [hgm]
          try dsimp only
          rw [List.get?_set_ne _ _ hmk, List.get?_set_eq_of_lt _ hk]
          try dsimp only
          by_cases hd : tgt.health - (4/5 : ℚ) ≤ 0
          · rw [if_pos hd]
            rw [List.set_comm _ _ _ hmk, List.set_set]
            refine shotRel_trans
              (shotRel_set
                (v := { tgt with health := tgt.health - 4/5, active := false })
                hg rfl (fun _ _ => rfl))
              (shotRel_set (c := sec) ?_ ?_ ?_)
            · rw [List.get?_set_ne _ es (fun h => hmk h.symm)]
              exact hgm0
            · by_cases h2 : sec.health - (3/5 : ℚ) ≤ 0
              · rw [if_pos h2]
              · rw [if_neg h2]
            · intro _
              by_cases h2 : sec.health - (3/5 : ℚ) ≤ 0
              · rw [if_pos h2]
                exact fun _ => rfl
              · rw [if_neg h2]
                exact fun hc => absurd hc h2
          · rw [if_neg hd]
            refine shotRel_trans
              (shotRel_set
                (v := { tgt with health := tgt.health - 4/5 })
                hg rfl (fun _ h => absurd h hd))
              (shotRel_set (c := sec) ?_ ?_ ?_)
            · rw [List.get?_set_ne _ es (fun h => hmk h.symm)]
              exact hgm0
            · by_cases h2 : sec.health - (3/5 : ℚ) ≤ 0
              · rw [if_pos h2]
              · rw [if_neg h2]
            · intro _
              by_cases h2 : sec.health - (3/5 : ℚ) ≤ 0
              · rw [if_pos h2]
                exact fun _ => rfl
              · rw [if_neg h2]
                exact fun hc => absurd hc h2

theorem stepTower_rel (i : Input) (od fr range2 : ℚ) (j : ℕ) (acc : TowerAcc)
    (t : Tower) :
    ShotRel acc.enemies (stepTower i od fr range2 j acc t).enemies := by
  unfold stepTower
  dsimp only
  split_ifs with h1 h2 h3
  · cases ht : acquireTarget t.position range2 acc.enemies with
    | none => exact shotRel_refl _
    | some k => exact towerShoot_rel _ _ _ _ _
  · cases ht : acquireTarget t.position range2 acc.enemies with
    | none => exact shotRel_refl _
    | some k => exact towerShoot_rel _ _ _ _ _
  · exact shotRel_refl _
  · exact shotRel_refl _

theorem towersGo_rel (i : Input) (od fr range2 : ℚ) :
    ∀ (ts : List Tower) (j : ℕ) (acc : TowerAcc),
      ShotRel acc.enemies (towersGo i od fr range2 j acc ts).enemies := by
  intro ts
  induction ts with
  | nil => intro j acc; exact shotRel_refl _
  | cons t r ih =>
    intro j acc
    simp only [towersGo]
    exact shotRel_trans (stepTower_rel i od fr range2 j acc t) (ih (j + 1) _)

theorem towersPhase_rel (i : Input) (s : GameState) :
    ShotRel s.enemies (towersPhase i s).enemies := by
  unfold towersPhase
  dsimp only
  exact towersGo_rel i _ _ _ s.towers 0 ⟨[], s.enemies, s.lasers, s.particles⟩

theorem simInv_towersPhase (i : Input) (s : GameState) (h : SimInv s) :
    SimInv (towersPhase i s) := by
  have hrel := towersPhase_rel i s
  obtain ⟨h1, h2, h3, h4, h5, h6, h7, h8⟩ := h
  refine ⟨h1, h2, h3, h4, h5, ?_, ?_, ?_⟩
  · intro hw
    exact shotRel_nil hrel (h6 hw)
  · exact shotRel_ok hrel h7
  · intro hsc
    exact ⟨(h8 hsc).1, shotRel_nil hrel (h8 hsc).2⟩

theorem simInv_gameplayUpdate (i : Input) (ui : Bool) (s : GameState)
    (hv : ValidInput i) (h : SimInv s) : SimInv (gameplayUpdate i ui s) := by
  unfold gameplayUpdate
  dsimp only
  exact simInv_upgradeKey i _ (simInv_gameOverCheck _
    (simInv_congr (simKernel_abilityTimersPhase i _)
    (simInv_congr (simKernel_visualsPhase i _)
    (simInv_congr (simKernel_notifsPhase i _)
    (simInv_congr (simKernel_particlesPhase i _)
    (simInv_congr (simKernel_powerupsPhase i _)
    (simInv_congr (simKernel_lasersPhase i _)
    (simInv_towersPhase i _
    (simInv_waveEndStep _
    (simInv_sweepPhase i _
    (simInv_spawnPhase i _ hv
    (simInv_pulsePhase i _ _
    (simInv_clickPhase i ui _
    (simInv_congr (simKernel_selectKeys i s) h))))))))))))))

theorem simInv_updatePhase (i : Input) (s : GameState) (hv : ValidInput i)
    (h : SimInv s) : SimInv (updatePhase i s) := by
  have h0 : SimInv (housekeeping i s) := simInv_congr (simKernel_housekeeping i s) h
  unfold updatePhase
  dsimp only
  cases hsc : (housekeeping i s).screen with
  | startMenu =>
    obtain ⟨h1, h2, h3, h4, h5, h6, h7, h8⟩ := h0
    dsimp only
    split_ifs with hk
    · exact ⟨h1, h2, h3, h4, h5, h6, h7,
        fun hm => by rcases hm with hm | hm | hm <;> simp at hm⟩
    · exact ⟨h1, h2, h3, h4, h5, h6, h7, h8⟩
  | guide =>
    obtain ⟨h1, h2, h3, h4, h5, h6, h7, h8⟩ := h0
    have hwe := h8 (Or.inr (Or.inl hsc))
    dsimp only
    split_ifs with hk
    · exact ⟨h1, h2, h3, h4, h5, h6, h7, fun _ => hwe⟩
    · exact ⟨h1, h2, h3, h4, h5, h6, h7, h8⟩
  | leaderboard =>
    obtain ⟨h1, h2, h3, h4, h5, h6, h7, h8⟩ := h0
    have hwe := h8 (Or.inr (Or.inr hsc))
    dsimp only
    split_ifs with hk
    · exact ⟨h1, h2, h3, h4, h5, h6, h7, fun _ => hwe⟩
    · exact ⟨h1, h2, h3, h4, h5, h6, h7, h8⟩
  | upgradeMenu => exact simInv_upgradeMenuUpdate i _ h0
  | gameplay => exact simInv_gameplayUpdate i _ _ hv h0
  | gameOver => exact simInv_congr (simKernel_nameEntry i _) h0

theorem simInv_footerButtons (i : Input) (s : GameState)
    (hsc : s.screen = GameScreen.gameplay) (h : SimInv s) :
    SimInv (footerButtons i s) := by
  obtain ⟨h1, h2, h3, h4, h5, h6, h7, h8⟩ := h
  unfold footerButtons startWave
  dsimp only
  split_ifs
  all_goals unfold SimInv
  all_goals try dsimp only
  all_goals
    exact ⟨h1, h2, by omega, by omega, h5,
      by first | exact h6 | (intro hw; exact absurd hw (by simp)),
      h7, fun hm => by rcases hm with hm | hm | hm <;> simp [hsc] at hm⟩

theorem simInv_buySlot (s : GameState) (h : SimInv s) : SimInv (buySlot s) := by
  obtain ⟨h1, h2, h3, h4, h5, h6, h7, h8⟩ := h
  unfold buySlot
  dsimp only
  split_ifs
  all_goals unfold SimInv
  all_goals try dsimp only
  all_goals exact ⟨h1, by omega, h3, h4, h5, h6, h7, h8⟩

theorem simInv_buyPulse (s : GameState) (h : SimInv s) : SimInv (buyPulse s) := by
  obtain ⟨h1, h2, h3, h4, h5, h6, h7, h8⟩ := h
  unfold buyPulse
  split_ifs
  all_goals unfold SimInv
  all_goals try dsimp only
  all_goals exact ⟨by omega, by omega, h3, h4, h5, h6, h7, h8⟩

theorem simInv_buyOverclock (s : GameState) (h : SimInv s) : SimInv (buyOverclock s) := by
  obtain ⟨h1, h2, h3, h4, h5, h6, h7, h8⟩ := h
  unfold buyOverclock
  split_ifs
  all_goals unfold SimInv
  all_goals try dsimp only
  all_goals exact ⟨h1, by omega, h3, h4, h5, h6, h7, h8⟩

theorem simInv_buyRepair (s : GameState) (h : SimInv s) : SimInv (buyRepair s) := by
  obtain ⟨h1, h2, h3, h4, h5, h6, h7, h8⟩ := h
  unfold buyRepair
  split_ifs
  all_goals unfold SimInv
  all_goals try dsimp only
  all_goals
    exact ⟨h1, by omega, h3, h4,
      by first | exact h5 | exact min_le_right _ _, h6, h7, h8⟩

theorem simInv_ite (c : Prop) [Decidable c] (f : GameState → GameState)
    (s : GameState) (hf : ∀ u, SimInv u → SimInv (f u)) (h : SimInv s) :
    SimInv (if c then f s else s) := by
  split_ifs
  · exact hf s h
  · exact h

theorem simInv_armoryButtons (i : Input) (s : GameState) (h : SimInv s) :
    SimInv (armoryButtons i s) := by
  unfold armoryButtons
  dsimp only
  have t1 := simInv_ite (clicked i buySlotRect = true) buySlot s
    (fun u hu => simInv_buySlot u hu) h
  have t2 := simInv_ite (clicked i buyPulseRect = true) buyPulse _
    (fun u hu => simInv_buyPulse u hu) t1
  have t3 := simInv_ite (clicked i buyFireRect = true) buyOverclock _
    (fun u hu => simInv_buyOverclock u hu) t2
  exact simInv_ite (clicked i buyRepairRect = true) buyRepair _
    (fun u hu => simInv_buyRepair u hu) t3

theorem simInv_rebootReset (s : GameState) (h : SimInv s) : SimInv (rebootReset s) := by
  obtain ⟨h1, h2, h3, h4, h5, h6, h7, h8⟩ := h
  unfold rebootReset SimInv
  dsimp only
  refine ⟨le_refl 0, le_refl 0, h3, le_refl 0, le_refl _, fun _ => rfl, ?_, ?_⟩
  · intro e he
    exact absurd he (List.not_mem_nil e)
  · intro hm
    rcases hm with hm | hm | hm <;> simp at hm

theorem simInv_renderPhase (i : Input) (s : GameState) (h : SimInv s) :
    SimInv (renderPhase i s) := by
  obtain ⟨h1, h2, h3, h4, h5, h6, h7, h8⟩ := h
  unfold renderPhase
  by_cases hm1 : s.screen = GameScreen.startMenu
  · rw [if_pos hm1]
    have hwe := h8 (Or.inl hm1)
    dsimp only
    split_ifs
    all_goals unfold SimInv
    all_goals try dsimp only
    all_goals
      exact ⟨h1, h2, h3, h4, h5, fun _ => hwe.2, h7,
        fun _ => ⟨by first | rfl | exact hwe.1, hwe.2⟩⟩
  · rw [if_neg hm1]
    by_cases hm2 : (s.screen = GameScreen.guide ∨ s.screen = GameScreen.leaderboard)
    · rw [if_pos hm2]
      have hwe := h8 (by
        rcases hm2 with hg | hg
        · exact Or.inr (Or.inl hg)
        · exact Or.inr (Or.inr hg))
      split_ifs with hc
      · exact ⟨h1, h2, h3, h4, h5, h6, h7, fun _ => hwe⟩
      · exact ⟨h1, h2, h3, h4, h5, h6, h7, h8⟩
    · rw [if_neg hm2]
      by_cases hm3 : (s.screen = GameScreen.gameplay ∨ s.screen = GameScreen.upgradeMenu)
      · rw [if_pos hm3]
        dsimp only
        by_cases hfc : (s.screen = GameScreen.gameplay ∧ s.waveActive = false ∧
            s.enemies = [])
        · rw [if_pos hfc]
          have hs1 : SimInv (footerButtons i s) :=
            simInv_footerButtons i s hfc.1 ⟨h1, h2, h3, h4, h5, h6, h7, h8⟩
          split_ifs with hc
          · exact simInv_armoryButtons i _ hs1
          · exact hs1
        · rw [if_neg hfc]
          split_ifs with hc
          · exact simInv_armoryButtons i s ⟨h1, h2, h3, h4, h5, h6, h7, h8⟩
          · exact ⟨h1, h2, h3, h4, h5, h6, h7, h8⟩
      · rw [if_neg hm3]
        by_cases hm4 : s.screen = GameScreen.gameOver
        · rw [if_pos hm4]
          dsimp only
          have hs1 : SimInv (if s.scoreSaved = false ∧ clicked i saveRect = true
              then { s with scoreSaved := true } else s) := by
            split_ifs
            · exact ⟨h1, h2, h3, h4, h5, h6, h7, h8⟩
            · exact ⟨h1, h2, h3, h4, h5, h6, h7, h8⟩
          exact simInv_ite (clicked i rebootRect = true) rebootReset _
            (fun u hu => simInv_rebootReset u hu) hs1
        · rw [if_neg hm4]
          exact ⟨h1, h2, h3, h4, h5, h6, h7, h8⟩

theorem simInv_frameStep (i : Input) (s : GameState) (hv : ValidInput i)
    (h : SimInv s) : SimInv (frameStep s i) :=
  simInv_renderPhase i _ (simInv_updatePhase i s hv h)

theorem simInv_initState : SimInv initState := by
  unfold SimInv initState
  refine ⟨le_refl 0, le_refl 0, le_refl 0, le_refl 0, by norm_num, fun _ => rfl,
    ?_, fun _ => ⟨rfl, rfl⟩⟩
  intro e he
  exact absurd he (List.not_mem_nil e)

theorem runFrames_simInv (l : List Input) :
    ∀ s, (∀ i ∈ l, ValidInput i) → SimInv s → SimInv (runFrames s l) := by
  induction l with
  | nil => intro s _ h; exact h
  | cons i r ih =>
    intro s hv h
    simp only [runFrames]
    exact ih _ (fun j hj => hv j (List.mem_cons_of_mem i hj))
      (simInv_frameStep i s (hv i (List.mem_cons_self i r)) h)

theorem reachable_simInv {s : GameState} (h : Reachable s) : SimInv s := by
  obtain ⟨l, hv, hrun⟩ := h
  rw [← hrun]
  exact runFrames_simInv l initState hv simInv_initState

theorem housekeeping_wave (i : Input) (s : GameState) :
    (housekeeping i s).currentWave = s.currentWave ∧
    (housekeeping i s).enemiesToSpawn = s.enemiesToSpawn := by
  unfold housekeeping
  dsimp only
  split_ifs <;> exact ⟨rfl, rfl⟩

theorem selectKeys_wave (i : Input) (s : GameState) :
    (selectKeys i s).currentWave = s.currentWave ∧
    (selectKeys i s).enemiesToSpawn = s.enemiesToSpawn := by
  unfold selectKeys
  dsimp only
  split_ifs <;> exact ⟨rfl, rfl⟩

theorem applyPickup_wave (i : Input) (idx : ℕ) (p : PowerUp) (s : GameState) :
    (applyPickup i idx p s).currentWave = s.currentWave ∧
    (applyPickup i idx p s).enemiesToSpawn = s.enemiesToSpawn := by
  unfold applyPickup
  cases hp : p.ptype <;> dsimp only <;> exact ⟨rfl, rfl⟩

theorem clickPhase_wave (i : Input) (ui : Bool) (s : GameState) :
    (clickPhase i ui s).currentWave = s.currentWave ∧
    (clickPhase i ui s).enemiesToSpawn = s.enemiesToSpawn := by
  by_cases hc : (i.mousePressed && !ui) = true
  · cases hf : findPickup i.mousePos s.powerups 0 with
    | none =>
      by_cases hp : ((s.towers.length : ℤ) < s.maxTowers ∧ 7225 < dist2 i.mousePos corePos)
      · have he : clickPhase i ui s
            = { s with towers := s.towers ++ [⟨i.mousePos, 0, s.currentSelection⟩] } := by
          simp [clickPhase, hc, hf, hp]
        rw [he]
        exact ⟨rfl, rfl⟩
      · have he : clickPhase i ui s = s := by simp [clickPhase, hc, hf, hp]
        rw [he]
        exact ⟨rfl, rfl⟩
    | some v =>
      obtain ⟨idx, pp⟩ := v
      have he : clickPhase i ui s = applyPickup i idx pp s := by simp [clickPhase, hc, hf]
      rw [he]
      exact applyPickup_wave i idx pp s
  · have he : clickPhase i ui s = s := by simp [clickPhase, hc]
    rw [he]
    exact ⟨rfl, rfl⟩

theorem pulsePhase_wave (i : Input) (pt : Bool) (s : GameState) :
    (pulsePhase i pt s).currentWave = s.currentWave ∧
    (pulsePhase i pt s).enemiesToSpawn = s.enemiesToSpawn := by
  unfold pulsePhase
  split_ifs <;> exact ⟨rfl, rfl⟩

theorem spawnPhase_wave (i : Input) (s : GameState) :
    (spawnPhase i s).currentWave = s.currentWave ∧
    (spawnPhase i s).enemiesToSpawn ≤ s.enemiesToSpawn := by
  unfold spawnPhase
  dsimp only
  split_ifs
  all_goals refine ⟨rfl, ?_⟩
  all_goals try dsimp only
  all_goals omega

theorem sweepPhase_wave (i : Input) (s : GameState) :
    (sweepPhase i s).currentWave = s.currentWave ∧
    (sweepPhase i s).enemiesToSpawn = s.enemiesToSpawn :=
  ⟨rfl, rfl⟩

theorem waveEndStep_wave (s : GameState) :
    (waveEndStep s).currentWave = s.currentWave ∧
    (waveEndStep s).enemiesToSpawn = s.enemiesToSpawn := by
  unfold waveEndStep
  split_ifs <;> exact ⟨rfl, rfl⟩

theorem towersPhase_wave (i : Input) (s : GameState) :
    (towersPhase i s).currentWave = s.currentWave ∧
    (towersPhase i s).enemiesToSpawn = s.enemiesToSpawn :=
  ⟨rfl, rfl⟩

theorem lasersPhase_wave (i : Input) (s : GameState) :
    (lasersPhase i s).currentWave = s.currentWave ∧
    (lasersPhase i s).enemiesToSpawn = s.enemiesToSpawn :=
  ⟨rfl, rfl⟩

theorem powerupsPhase_wave (i : Input) (s : GameState) :
    (powerupsPhase i s).currentWave = s.currentWave ∧
    (powerupsPhase i s).enemiesToSpawn = s.enemiesToSpawn :=
  ⟨rfl, rfl⟩

theorem particlesPhase_wave (i : Input) (s : GameState) :
    (particlesPhase i s).currentWave = s.currentWave ∧
    (particlesPhase i s).enemiesToSpawn = s.enemiesToSpawn :=
  ⟨rfl, rfl⟩

theorem notifsPhase_wave (i : Input) (s : GameState) :
    (notifsPhase i s).currentWave = s.currentWave ∧
    (notifsPhase i s).enemiesToSpawn = s.enemiesToSpawn :=
  ⟨rfl, rfl⟩

theorem visualsPhase_wave (i : Input) (s : GameState) :
    (visualsPhase i s).currentWave = s.currentWave ∧
    (visualsPhase i s).enemiesToSpawn = s.enemiesToSpawn := by
  unfold visualsPhase
  dsimp only
  split_ifs <;> exact ⟨rfl, rfl⟩

theorem abilityTimersPhase_wave (i : Input) (s : GameState) :
    (abilityTimersPhase i s).currentWave = s.currentWave ∧
    (abilityTimersPhase i s).enemiesToSpawn = s.enemiesToSpawn := by
  unfold abilityTimersPhase
  dsimp only
  split_ifs <;> exact ⟨rfl, rfl⟩

theorem gameOverCheck_wave (s : GameState) :
    (gameOverCheck s).currentWave = s.currentWave ∧
    (gameOverCheck s).enemiesToSpawn = s.enemiesToSpawn := by
  unfold gameOverCheck
  split_ifs <;> exact ⟨rfl, rfl⟩

theorem upgradeKey_wave (i : Input) (s : GameState) :
    (upgradeKey i s).currentWave = s.currentWave ∧
    (upgradeKey i s).enemiesToSpawn = s.enemiesToSpawn := by
  unfold upgradeKey
  split_ifs <;> exact ⟨rfl, rfl⟩

theorem upgradeMenuUpdate_wave (i : Input) (s : GameState) :
    (upgradeMenuUpdate i s).currentWave = s.currentWave ∧
    (upgradeMenuUpdate i s).enemiesToSpawn = s.enemiesToSpawn := by
  unfold upgradeMenuUpdate
  dsimp only
  split_ifs <;> exact ⟨rfl, rfl⟩

theorem nameEntry_wave (i : Input) (s : GameState) :
    (nameEntry i s).currentWave = s.currentWave ∧
    (nameEntry i s).enemiesToSpawn = s.enemiesToSpawn := by
  unfold nameEntry
  dsimp only
  split_ifs <;> exact ⟨rfl, rfl⟩

theorem gameplayUpdate_wave (i : Input) (ui : Bool) (s : GameState) :
    (gameplayUpdate i ui s).currentWave = s.currentWave ∧
    (gameplayUpdate i ui s).enemiesToSpawn ≤ s.enemiesToSpawn := by
  unfold gameplayUpdate
  dsimp only
  constructor
  · rw [(upgradeKey_wave _ _).1, (gameOverCheck_wave _).1,
      (abilityTimersPhase_wave _ _).1, (visualsPhase_wave _ _).1,
      (notifsPhase_wave _ _).1, (particlesPhase_wave _ _).1,
      (powerupsPhase_wave _ _).1, (lasersPhase_wave _ _).1,
      (towersPhase_wave _ _).1, (waveEndStep_wave _).1,
      (sweepPhase_wave _ _).1, (spawnPhase_wave _ _).1,
      (pulsePhase_wave _ _ _).1, (clickPhase_wave _ _ _).1,
      (selectKeys_wave _ _).1]
  · rw [(upgradeKey_wave _ _).2, (gameOverCheck_wave _).2,
      (abilityTimersPhase_wave _ _).2, (visualsPhase_wave _ _).2,
      (notifsPhase_wave _ _).2, (particlesPhase_wave _ _).2,
      (powerupsPhase_wave _ _).2, (lasersPhase_wave _ _).2,
      (towersPhase_wave _ _).2, (waveEndStep_wave _).2,
      (sweepPhase_wave _ _).2]
    refine le_trans (spawnPhase_wave _ _).2 ?_
    rw [(pulsePhase_wave _ _ _).2, (clickPhase_wave _ _ _).2]
    exact le_of_eq (selectKeys_wave _ _).2

theorem updatePhase_wave (i : Input) (s : GameState) :
    (updatePhase i s).currentWave = s.currentWave ∧
    (updatePhase i s).enemiesToSpawn ≤ s.enemiesToSpawn := by
  obtain ⟨hh1, hh2⟩ := housekeeping_wave i s
  unfold updatePhase
  dsimp only
  cases hsc : (housekeeping i s).screen with
  | startMenu =>
    dsimp only
    split_ifs <;> exact ⟨hh1, le_of_eq hh2⟩
  | guide =>
    dsimp only
    split_ifs <;> exact ⟨hh1, le_of_eq hh2⟩
  | leaderboard =>
    dsimp only
    split_ifs <;> exact ⟨hh1, le_of_eq hh2⟩
  | upgradeMenu =>
    obtain ⟨a, b⟩ := upgradeMenuUpdate_wave i (housekeeping i s)
    exact ⟨a.trans hh1, le_of_eq (b.trans hh2)⟩
  | gameplay =>
    obtain ⟨a, b⟩ := gameplayUpdate_wave i (mouseOnUi i s) (housekeeping i s)
    exact ⟨a.trans hh1, le_trans b (le_of_eq hh2)⟩
  | gameOver =>
    obtain ⟨a, b⟩ := nameEntry_wave i (housekeeping i s)
    exact ⟨a.trans hh1, le_of_eq (b.trans hh2)⟩

theorem buySlot_wave (s : GameState) :
    (buySlot s).currentWave = s.currentWave ∧
    (buySlot s).enemiesToSpawn = s.enemiesToSpawn := by
  unfold buySlot
  dsimp only
  split_ifs <;> exact ⟨rfl, rfl⟩

theorem buyPulse_wave (s : GameState) :
    (buyPulse s).currentWave = s.currentWave ∧
    (buyPulse s).enemiesToSpawn = s.enemiesToSpawn := by
  unfold buyPulse
  split_ifs <;> exact ⟨rfl, rfl⟩

theorem buyOverclock_wave (s : GameState) :
    (buyOverclock s).currentWave = s.currentWave ∧
    (buyOverclock s).enemiesToSpawn = s.enemiesToSpawn := by
  unfold buyOverclock
  split_ifs <;> exact ⟨rfl, rfl⟩

theorem buyRepair_wave (s : GameState) :
    (buyRepair s).currentWave = s.currentWave ∧
    (buyRepair s).enemiesToSpawn = s.enemiesToSpawn := by
  unfold buyRepair
  split_ifs <;> exact ⟨rfl, rfl⟩

theorem waveCtr_ite (c : Prop) [Decidable c] (f : GameState → GameState)
    (s : GameState)
    (hf : ∀ u : GameState, (f u).currentWave = u.currentWave ∧
      (f u).enemiesToSpawn = u.enemiesToSpawn) :
    (if c then f s else s).currentWave = s.currentWave ∧
    (if c then f s else s).enemiesToSpawn = s.enemiesToSpawn := by
  split_ifs with h
  · exact hf s
  · exact ⟨rfl, rfl⟩

theorem armoryButtons_wave (i : Input) (s : GameState) :
    (armoryButtons i s).currentWave = s.currentWave ∧
    (armoryButtons i s).enemiesToSpawn = s.enemiesToSpawn := by
  unfold armoryButtons
  dsimp only
  obtain ⟨a1, b1⟩ := waveCtr_ite (clicked i buySlotRect = true) buySlot s
    (fun u => buySlot_wave u)
  obtain ⟨a2, b2⟩ := waveCtr_ite (clicked i buyPulseRect = true) buyPulse
    (if clicked i buySlotRect = true then buySlot s else s)
    (fun u => buyPulse_wave u)
  obtain ⟨a3, b3⟩ := waveCtr_ite (clicked i buyFireRect = true) buyOverclock
    (if clicked i buyPulseRect = true then
      buyPulse (if clicked i buySlotRect = true then buySlot s else s)
    else (if clicked i buySlotRect = true then buySlot s else s))
    (fun u => buyOverclock_wave u)
  obtain ⟨a4, b4⟩ := waveCtr_ite (clicked i buyRepairRect = true) buyRepair
    (if clicked i buyFireRect = true then
      buyOverclock (if clicked i buyPulseRect = true then
        buyPulse (if clicked i buySlotRect = true then buySlot s else s)
      else (if clicked i buySlotRect = true then buySlot s else s))
    else (if clicked i buyPulseRect = true then
      buyPulse (if clicked i buySlotRect = true then buySlot s else s)
    else (if clicked i buySlotRect = true then buySlot s else s)))
    (fun u => buyRepair_wave u)
  exact ⟨((a4.trans a3).trans a2).trans a1, ((b4.trans b3).trans b2).trans b1⟩

theorem footerButtons_wave (i : Input) (s : GameState) :
    ((footerButtons i s).currentWave = s.currentWave ∧
     (footerButtons i s).enemiesToSpawn = s.enemiesToSpawn) ∨
    (footerButtons i s).currentWave = s.currentWave + 1 := by
  unfold footerButtons startWave
  dsimp only
  split_ifs <;> first | exact Or.inl ⟨rfl, rfl⟩ | exact Or.inr rfl

theorem renderPhase_wave (i : Input) (s : GameState) :
    ((renderPhase i s).currentWave = s.currentWave ∧
     (renderPhase i s).enemiesToSpawn = s.enemiesToSpawn) ∨
    (renderPhase i s).currentWave = s.currentWave + 1 ∨
    ((renderPhase i s).currentWave = 0 ∧
     (renderPhase i s).enemiesToSpawn = s.enemiesToSpawn) := by
  unfold renderPhase
  by_cases hm1 : s.screen = GameScreen.startMenu
  · rw [if_pos hm1]
    dsimp only
    split_ifs <;> exact Or.inl ⟨rfl, rfl⟩
  · rw [if_neg hm1]
    by_cases hm2 : (s.screen = GameScreen.guide ∨ s.screen = GameScreen.leaderboard)
    · rw [if_pos hm2]
      split_ifs <;> exact Or.inl ⟨rfl, rfl⟩
    · rw [if_neg hm2]
      by_cases hm3 : (s.screen = GameScreen.gameplay ∨ s.screen = GameScreen.upgradeMenu)
      · rw [if_pos hm3]
        dsimp only
        by_cases hfc : (s.screen = GameScreen.gameplay ∧ s.waveActive = false ∧
            s.enemies = [])
        · rw [if_pos hfc]
          rcases footerButtons_wave i s with ⟨a1, b1⟩ | a1
          · split_ifs with hc
            · obtain ⟨a2, b2⟩ := armoryButtons_wave i (footerButtons i s)
              exact Or.inl ⟨a2.trans a1, b2.trans b1⟩
            · exact Or.inl ⟨a1, b1⟩
          · split_ifs with hc
            · obtain ⟨a2, -⟩ := armoryButtons_wave i (footerButtons i s)
              exact Or.inr (Or.inl (a2.trans a1))
            · exact Or.inr (Or.inl a1)
        · rw [if_neg hfc]
          split_ifs with hc
          · obtain ⟨a2, b2⟩ := armoryButtons_wave i s
            exact Or.inl ⟨a2, b2⟩
          · exact Or.inl ⟨rfl, rfl⟩
      · rw [if_neg hm3]
        by_cases hm4 : s.screen = GameScreen.gameOver
        · rw [if_pos hm4]
          dsimp only
          split_ifs <;>
            first
              | exact Or.inl ⟨rfl, rfl⟩
              | exact Or.inr (Or.inr ⟨rfl, rfl⟩)
        · rw [if_neg hm4]
          exact Or.inl ⟨rfl, rfl⟩

/-- C5 (corrected): while a wave is active the wave-completion check turns it
inactive exactly when the spawn queue is exhausted (`≤ 0`; equivalently `= 0`
in reachable states, where the counter is nonnegative), no boss is queued and
no enemies remain; that transition clears the towers and emits the wave-clear
notification.  `enemiesToSpawn` is non-increasing over any frame that leaves
the wave counter unchanged — the original monotonicity claim fails on frames
that restart a wave (START WAVE raises the counter), and the REBOOT button
also deactivates a wave outside the stated condition. -/
theorem c5_wave_transition (s : GameState) (i : Input) :
    (s.waveActive = true →
      ((waveEndStep s).waveActive = false ↔
        (s.enemiesToSpawn ≤ 0 ∧ s.bossInQueue = false ∧ s.enemies = []))) ∧
    (s.waveActive = true ∧ s.enemiesToSpawn ≤ 0 ∧ s.bossInQueue = false ∧
        s.enemies = [] →
      (waveEndStep s).waveActive = false ∧ (waveEndStep s).towers = [] ∧
      (waveEndStep s).notifications = s.notifications ++ [waveClearNote]) ∧
    (Reachable s → 0 ≤ s.enemiesToSpawn) ∧
    ((frameStep s i).currentWave = s.currentWave →
      (frameStep s i).enemiesToSpawn ≤ s.enemiesToSpawn) := by
  refine ⟨?_, ?_, ?_, ?_⟩
  · intro hw
    constructor
    · intro hf
      by_contra hc
      have hid : waveEndStep s = s := by
        unfold waveEndStep
        rw [if_neg]
        intro hcc
        exact hc ⟨hcc.2.1, hcc.2.2.1, hcc.2.2.2⟩
      rw [hid, hw] at hf
      exact absurd hf (by simp)
    · intro hcond
      unfold waveEndStep
      rw [if_pos ⟨hw, hcond.1, hcond.2.1, hcond.2.2⟩]
  · intro hcond
    unfold waveEndStep
    rw [if_pos ⟨hcond.1, hcond.2.1, hcond.2.2.1, hcond.2.2.2⟩]
    exact ⟨rfl, rfl, rfl⟩
  · intro hr
    exact (reachable_simInv hr).2.2.1
  · intro hW
    have hu := updatePhase_wave i s
    have hrp := renderPhase_wave i (updatePhase i s)
    unfold frameStep at hW ⊢
    rcases hrp with ⟨a2, b2⟩ | a2 | ⟨a2, b2⟩
    · rw [b2]
      exact hu.2
    · exfalso
      rw [a2, hu.1] at hW
      omega
    · rw [b2]
      exact hu.2

/-- C5 witness: the corrected wave-transition theorem applied at a state with
an active wave and empty queue/board, and at the initial state under an idle
frame. -/
theorem c5_wave_transition_witness :
    ((waveEndStep c5Demo).waveActive = false ↔
      (c5Demo.enemiesToSpawn ≤ 0 ∧ c5Demo.bossInQueue = false ∧
       c5Demo.enemies = [])) ∧
    ((waveEndStep c5Demo).waveActive = false ∧ (waveEndStep c5Demo).towers = [] ∧
      (waveEndStep c5Demo).notifications = c5Demo.notifications ++ [waveClearNote]) ∧
    0 ≤ initState.enemiesToSpawn ∧
    (frameStep initState idleInput).enemiesToSpawn ≤ initState.enemiesToSpawn :=
  ⟨(c5_wave_transition c5Demo idleInput).1 rfl,
   (c5_wave_transition c5Demo idleInput).2.1 ⟨rfl, le_refl 0, rfl, rfl⟩,
   (c5_wave_transition initState idleInput).2.2.1
     ⟨[], fun j hj => absurd hj (List.not_mem_nil j), rfl⟩,
   (c5_wave_transition initState idleInput).2.2.2 (by with_unfolding_all decide)⟩

theorem argminAux_none (tpos : V2) :
    ∀ (l : List Enemy) (idx : ℕ) (best : Option ℕ) (bD : ℚ),
      argminAux tpos l idx best bD = none →
      best = none ∧ ∀ e ∈ l, bD ≤ dist2 tpos e.position := by
  intro l
  induction l with
  | nil =>
    intro idx best bD h
    simp only [argminAux] at h
    exact ⟨h, fun e he => absurd he (List.not_mem_nil e)⟩
  | cons e r ih =>
    intro idx best bD h
    simp only [argminAux] at h
    by_cases hd : dist2 tpos e.position < bD
    · rw [if_pos hd] at h
      obtain ⟨hn, -⟩ := ih (idx + 1) (some idx) _ h
      exact absurd hn (by simp)
    · rw [if_neg hd] at h
      obtain ⟨hn, hall⟩ := ih (idx + 1) best bD h
      refine ⟨hn, fun f hf => ?_⟩
      rcases List.mem_cons.mp hf with rfl | hf
      · exact le_of_not_lt hd
      · exact hall f hf

theorem argminAux_some (tpos : V2) :
    ∀ (l : List Enemy) (idx : ℕ) (best : Option ℕ) (bD : ℚ) (k : ℕ),
      argminAux tpos l idx best bD = some k →
      (best = some k ∧ ∀ f ∈ l, bD ≤ dist2 tpos f.position) ∨
      (idx ≤ k ∧ ∃ e, l.get? (k - idx) = some e ∧
        dist2 tpos e.position < bD ∧
        (∀ f ∈ l, dist2 tpos e.position ≤ dist2 tpos f.position) ∧
        (∀ n f, n < k - idx → l.get? n = some f →
          dist2 tpos e.position < dist2 tpos f.position)) := by
  intro l
  induction l with
  | nil =>
    intro idx best bD k h
    simp only [argminAux] at h
    exact Or.inl ⟨h, fun f hf => absurd hf (List.not_mem_nil f)⟩
  | cons e r ih =>
    intro idx best bD k h
    simp only [argminAux] at h
    by_cases hd : dist2 tpos e.position < bD
    · rw [if_pos hd] at h
      rcases ih (idx + 1) (some idx) _ k h with ⟨hb, hall⟩ |
        ⟨hik, w, hw, hwd, hwall, hwst⟩
      · injection hb with hb
        subst hb
        refine Or.inr ⟨le_refl idx, e, by simp, hd, ?_, ?_⟩
        · intro f hf
          rcases List.mem_cons.mp hf with rfl | hf
          · exact le_refl _
          · exact hall f hf
        · intro n f hn hf
          exact absurd hn (by omega)
      · refine Or.inr ⟨le_trans (Nat.le_succ idx) hik, w, ?_, lt_trans hwd hd,
          ?_, ?_⟩
        · have hki : k - idx = (k - (idx + 1)) + 1 := by omega
          rw [hki]
          simpa using hw
        · intro f hf
          rcases List.mem_cons.mp hf with rfl | hf
          · exact le_of_lt hwd
          · exact hwall f hf
        · intro n f hn hf
          cases n with
          | zero =>
            rw [List.get?_cons_zero] at hf
            injection hf with hf
            subst hf
            exact hwd
          | succ n =>
            rw [List.get?_cons_succ] at hf
            exact hwst n f (by omega) hf
    · rw [if_neg hd] at h
      rcases ih (idx + 1) best bD k h with ⟨hb, hall⟩ |
        ⟨hik, w, hw, hwd, hwall, hwst⟩
      · refine Or.inl ⟨hb, fun f hf => ?_⟩
        rcases List.mem_cons.mp hf with rfl | hf
        · exact le_of_not_lt hd
        · exact hall f hf
      · refine Or.inr ⟨le_trans (Nat.le_succ idx) hik, w, ?_, hwd, ?_, ?_⟩
        · have hki : k - idx = (k - (idx + 1)) + 1 := by omega
          rw [hki]
          simpa using hw
        · intro f hf
          rcases List.mem_cons.mp hf with rfl | hf
          · exact le_of_lt (lt_of_lt_of_le hwd (le_of_not_lt hd))
          · exact hwall f hf
        · intro n f hn hf
          cases n with
          | zero =>
            rw [List.get?_cons_zero] at hf
            injection hf with hf
            subst hf
            exact lt_of_lt_of_le hwd (le_of_not_lt hd)
          | succ n =>
            rw [List.get?_cons_succ] at hf
            exact hwst n f (by omega) hf

theorem acquireTarget_none (tpos : V2) (range2 : ℚ) (es : List Enemy)
    (h : acquireTarget tpos range2 es = none) :
    ∀ e ∈ es, range2 ≤ dist2 tpos e.position :=
  (argminAux_none tpos es 0 none range2 h).2

theorem acquireTarget_some (tpos : V2) (range2 : ℚ) (es : List Enemy) (k : ℕ)
    (h : acquireTarget tpos range2 es = some k) :
    ∃ e, es.get? k = some e ∧ dist2 tpos e.position < range2 ∧
      (∀ f ∈ es, dist2 tpos e.position ≤ dist2 tpos f.position) ∧
      (∀ n f, n < k → es.get? n = some f →
        dist2 tpos e.position < dist2 tpos f.position) := by
  rcases argminAux_some tpos es 0 none range2 k h with ⟨hb, -⟩ |
    ⟨-, w, hw, hwd, hwall, hwst⟩
  · exact absurd hb (by simp)
  · rw [Nat.sub_zero] at hw
    exact ⟨w, hw, hwd, hwall, fun n f hn hf => hwst n f (by omega) hf⟩

/-- C6 (corrected): the target scan compares squared distances *strictly*
against the squared range and ignores the enemies' `active` flags: a `none`
result means every enemy (living or dead) sits at squared distance at least
the squared range, and a `some k` result names the first enemy attaining the
strictly smallest squared distance below it — enemies scanned earlier are
strictly farther, and no enemy anywhere is closer.  When the scan returns no
target the tower does not fire: its shoot timer keeps the accumulated value
and the enemy and laser collections are untouched. -/
theorem c6_targeting (tpos : V2) (range2 : ℚ) (es : List Enemy) (i : Input)
    (od fr rg : ℚ) (j : ℕ) (acc : TowerAcc) (t : Tower) :
    (acquireTarget tpos range2 es = none →
      ∀ e ∈ es, range2 ≤ dist2 tpos e.position) ∧
    (∀ k, acquireTarget tpos range2 es = some k →
      ∃ e, es.get? k = some e ∧ dist2 tpos e.position < range2 ∧
        (∀ f ∈ es, dist2 tpos e.position ≤ dist2 tpos f.position) ∧
        (∀ n f, n < k → es.get? n = some f →
          dist2 tpos e.position < dist2 tpos f.position)) ∧
    (effRate od fr t.ttype ≤ t.shootTimer + i.dt →
      acquireTarget t.position rg acc.enemies = none →
      (stepTower i od fr rg j acc t).done
          = acc.done ++ [{ t with shootTimer := t.shootTimer + i.dt }] ∧
      (stepTower i od fr rg j acc t).enemies = acc.enemies ∧
      (stepTower i od fr rg j acc t).lasers = acc.lasers) := by
  refine ⟨fun h => acquireTarget_none tpos range2 es h,
    fun k h => acquireTarget_some tpos range2 es k h, ?_⟩
  intro ht hn
  unfold stepTower
  dsimp only
  rw [if_pos ht, hn]
  exact ⟨rfl, rfl, rfl⟩

set_option maxRecDepth 100000 in
/-- C6 witness: the corrected targeting theorem applied to the at-range living
enemy (strictness leaves it untargeted), to the inactive/living pair (the
inactive enemy at index 0 is chosen), and to a ready tower with no target in
range, which keeps its accumulated timer. -/
theorem c6_targeting_witness :
    (∀ e ∈ [c6Live], (230*230 : ℚ) ≤ dist2 c6Tower e.position) ∧
    (∃ e, [c6Dead, c6Live].get? 0 = some e ∧
      dist2 c6Tower e.position < 230*230 ∧
      (∀ f ∈ [c6Dead, c6Live],
        dist2 c6Tower e.position ≤ dist2 c6Tower f.position) ∧
      (∀ n f, n < 0 → [c6Dead, c6Live].get? n = some f →
        dist2 c6Tower e.position < dist2 c6Tower f.position)) ∧
    ((stepTower idleInput 0 (4/5) (230*230) 0 c6Acc c6ReadyTower).done
        = c6Acc.done ++
          [{ c6ReadyTower with
              shootTimer := c6ReadyTower.shootTimer + idleInput.dt }] ∧
     (stepTower idleInput 0 (4/5) (230*230) 0 c6Acc c6ReadyTower).enemies
        = c6Acc.enemies ∧
     (stepTower idleInput 0 (4/5) (230*230) 0 c6Acc c6ReadyTower).lasers
        = c6Acc.lasers) :=
  ⟨(c6_targeting c6Tower (230*230) [c6Live] idleInput 0 (4/5) (230*230) 0
      c6Acc c6ReadyTower).1 (by with_unfolding_all rfl),
   (c6_targeting c6Tower (230*230) [c6Dead, c6Live] idleInput 0 (4/5) (230*230) 0
      c6Acc c6ReadyTower).2.1 0 (by with_unfolding_all rfl),
   (c6_targeting c6Tower (230*230) [c6Live] idleInput 0 (4/5) (230*230) 0
      c6Acc c6ReadyTower).2.2 (by with_unfolding_all decide)
      (by with_unfolding_all rfl)⟩

/-- C3 (confirmed): the Pulse fires only with a positive charge count during
an active wave; a firing frame consumes exactly one charge, a non-firing pulse
phase is the identity, and the charge count is nonnegative in every reachable
state. -/
theorem c3_pulse_charges (i : Input) (pt : Bool) (s : GameState) :
    (pulseFires i pt s = true → 0 < s.pulseWaveCharges ∧ s.waveActive = true) ∧
    (pulseFires i pt s = true →
      (pulsePhase i pt s).pulseWaveCharges = s.pulseWaveCharges - 1) ∧
    (pulseFires i pt s = false → pulsePhase i pt s = s) ∧
    (Reachable s → 0 ≤ s.pulseWaveCharges) := by
  refine ⟨?_, ?_, ?_, ?_⟩
  · intro hf
    unfold pulseFires at hf
    simp only [Bool.and_eq_true, decide_eq_true_eq] at hf
    exact ⟨hf.1.2, hf.2⟩
  · intro hf
    unfold pulsePhase
    rw [if_pos hf]
  · intro hf
    unfold pulsePhase
    rw [if_neg (by simp [hf])]
  · intro hr
    exact (reachable_simInv hr).1

set_option maxRecDepth 100000 in
/-- C3 witness: the pulse theorem applied at a one-charge active-wave state
under a space-bar frame, and at the (reachable) initial state under an idle
frame. -/
theorem c3_pulse_charges_witness :
    (0 < sPulseDemo.pulseWaveCharges ∧ sPulseDemo.waveActive = true) ∧
    (pulsePhase spaceInput true sPulseDemo).pulseWaveCharges
      = sPulseDemo.pulseWaveCharges - 1 ∧
    pulsePhase idleInput false initState = initState ∧
    0 ≤ initState.pulseWaveCharges :=
  ⟨(c3_pulse_charges spaceInput true sPulseDemo).1 (by with_unfolding_all decide),
   (c3_pulse_charges spaceInput true sPulseDemo).2.1 (by with_unfolding_all decide),
   (c3_pulse_charges idleInput false initState).2.2.1 (by with_unfolding_all decide),
   (c3_pulse_charges idleInput false initState).2.2.2
     ⟨[], fun j hj => absurd hj (List.not_mem_nil j), rfl⟩⟩

/-- C7 (corrected): combat never erases an enemy mid-resolution — both the
Pulse and the tower pass preserve the collection's length and mark dead
enemies inactive in place (well-formedness is preserved, and every reachable
state is well formed); the Lifecycle Sweeper is what erases them, leaving only
active enemies behind.  However, the sweep runs *before* combat resolution
within a frame, so the reward/split removal of a combat kill happens in the
*next* frame's sweep, not later in the same frame as the claim states. -/
theorem c7_deferred_removal (i : Input) (pt : Bool) (s : GameState) :
    (pulsePhase i pt s).enemies.length = s.enemies.length ∧
    (towersPhase i s).enemies.length = s.enemies.length ∧
    ((∀ e ∈ s.enemies, EnemyOk e) →
      ∀ e ∈ (pulsePhase i pt s).enemies, EnemyOk e) ∧
    ((∀ e ∈ s.enemies, EnemyOk e) →
      ∀ e ∈ (towersPhase i s).enemies, EnemyOk e) ∧
    ((∀ e ∈ s.enemies, EnemyOk e) →
      ∀ e ∈ (sweepPhase i s).enemies, e.active = true) ∧
    (Reachable s → ∀ e ∈ s.enemies, EnemyOk e) := by
  refine ⟨?_, (towersPhase_rel i s).1, ?_, ?_, ?_, ?_⟩
  · unfold pulsePhase
    split_ifs <;> simp
  · intro hok e he
    unfold pulsePhase at he
    by_cases hf : pulseFires i pt s = true
    · rw [if_pos hf] at he
      dsimp only at he
      simp only [List.mem_map] at he
      obtain ⟨x, hx, rfl⟩ := he
      exact pulseHit_ok x (hok x hx)
    · rw [if_neg hf] at he
      exact hok e he
  · exact fun hok => shotRel_ok (towersPhase_rel i s) hok
  · intro hok e he
    have hm := sweepGo_master i s.empTimer s.enemies 0
      ⟨[], [], s.coreHealth, s.currency, s.score, s.shakeIntensity,
       s.damageFlashTimer, s.powerups, s.particles⟩ hok (by simp)
    exact (hm.2.2 e he).2
  · intro hr
    exact (reachable_simInv hr).2.2.2.2.2.2.1

set_option maxRecDepth 100000 in
/-- C7 witness: the corrected deferral theorem applied at the reachable state
holding the freshly killed (inactive) enemy: the pulse pass keeps the length,
the sweep leaves only active enemies, and the state is well formed. -/
theorem c7_deferred_removal_witness :
    (pulsePhase idleInput false combatKillState).enemies.length
      = combatKillState.enemies.length ∧
    (∀ e ∈ (sweepPhase idleInput combatKillState).enemies, e.active = true) ∧
    (∀ e ∈ combatKillState.enemies, EnemyOk e) :=
  ⟨(c7_deferred_removal idleInput false combatKillState).1,
   (c7_deferred_removal idleInput false combatKillState).2.2.2.2.1
     (by with_unfolding_all decide),
   (c7_deferred_removal idleInput false combatKillState).2.2.2.2.2
     ⟨combatTrace, by with_unfolding_all decide, rfl⟩⟩

/-- C9 (confirmed): both split replacements are minimum-tier (3 sides, radius
16) and never satisfy the split condition; movement and Pulse damage leave the
split condition untouched, so a split child can never itself split. -/
theorem c9_split_bounded (pos : V2) (i : Input) (eT : ℚ) (idx : ℕ) (e : Enemy) :
    (∀ m ∈ splitChildren pos, splitCond m = false) ∧
    splitCond (moveEnemy i eT idx e) = splitCond e ∧
    splitCond (pulseHit e) = splitCond e := by
  refine ⟨?_, ?_, ?_⟩
  · intro m hm
    have hs : m.sides = 3 ∧ m.radius = 16 := by
      unfold splitChildren miniEnemy at hm
      simp only [List.mem_cons, List.not_mem_nil, or_false] at hm
      rcases hm with rfl | rfl <;> exact ⟨rfl, rfl⟩
    unfold splitCond
    rw [hs.1, hs.2]
    rw [decide_eq_false (by norm_num : ¬((6:ℤ) ≤ 3)), Bool.false_and]
  · unfold moveEnemy
    dsimp only
    split_ifs <;> rfl
  · unfold pulseHit
    dsimp only
    split_ifs <;> rfl

/-- C9 witness: the split-boundedness theorem applied to a child spawned at
the origin. -/
theorem c9_split_bounded_witness :
    splitCond (miniEnemy ⟨0, 0⟩) = false :=
  (c9_split_bounded ⟨0, 0⟩ idleInput 0 0 (miniEnemy ⟨0, 0⟩)).1 (miniEnemy ⟨0, 0⟩)
    (by unfold splitChildren; exact List.mem_cons_self _ _)

/-- C10 (confirmed): each armory purchase is a no-op when its guard fails
(insufficient currency; for CORE REPAIR also an undamaged core) and otherwise
debits exactly its listed cost; repair caps core health at the maximum, and in
every reachable state the currency is nonnegative and the core health never
exceeds its maximum. -/
theorem c10_armory_purchases (s : GameState) :
    (¬ slotCost s ≤ s.currency → buySlot s = s) ∧
    (slotCost s ≤ s.currency → (buySlot s).currency = s.currency - slotCost s) ∧
    (¬ (300 : ℤ) ≤ s.currency → buyPulse s = s) ∧
    ((300 : ℤ) ≤ s.currency → (buyPulse s).currency = s.currency - 300) ∧
    (¬ fireCost s ≤ s.currency → buyOverclock s = s) ∧
    (fireCost s ≤ s.currency →
      (buyOverclock s).currency = s.currency - fireCost s) ∧
    (¬ (450 ≤ s.currency ∧ s.coreHealth < s.maxCoreHealth) → buyRepair s = s) ∧
    (450 ≤ s.currency ∧ s.coreHealth < s.maxCoreHealth →
      (buyRepair s).currency = s.currency - 450 ∧
      (buyRepair s).coreHealth = min (s.coreHealth + 6) s.maxCoreHealth ∧
      (buyRepair s).coreHealth ≤ s.maxCoreHealth) ∧
    (Reachable s → 0 ≤ s.currency ∧ s.coreHealth ≤ s.maxCoreHealth) := by
  refine ⟨?_, ?_, ?_, ?_, ?_, ?_, ?_, ?_, ?_⟩
  · intro h
    unfold buySlot
    rw [if_neg h]
  · intro h
    unfold buySlot
    rw [if_pos h]
    dsimp only
    split_ifs <;> rfl
  · intro h
    unfold buyPulse
    rw [if_neg h]
  · intro h
    unfold buyPulse
    rw [if_pos h]
  · intro h
    unfold buyOverclock
    rw [if_neg h]
  · intro h
    unfold buyOverclock
    rw [if_pos h]
  · intro h
    unfold buyRepair
    rw [if_neg h]
  · intro h
    unfold buyRepair
    rw [if_pos h]
    exact ⟨rfl, rfl, min_le_right _ _⟩
  · intro hr
    have hs := reachable_simInv hr
    exact ⟨hs.2.1, hs.2.2.2.2.1⟩

/-- C10 witness: the purchase theorem applied at a rich damaged-core state
(successful NODE SLOT and CORE REPAIR purchases with exact debits and capped
repair) and at the reachable initial state (failed PULSE purchase no-op,
nonnegative currency, capped core health). -/
theorem c10_armory_purchases_witness :
    (buySlot c10Rich).currency = c10Rich.currency - slotCost c10Rich ∧
    buyPulse initState = initState ∧
    ((buyRepair c10Rich).currency = c10Rich.currency - 450 ∧
     (buyRepair c10Rich).coreHealth
        = min (c10Rich.coreHealth + 6) c10Rich.maxCoreHealth ∧
     (buyRepair c10Rich).coreHealth ≤ c10Rich.maxCoreHealth) ∧
    (0 ≤ initState.currency ∧ initState.coreHealth ≤ initState.maxCoreHealth) :=
  ⟨(c10_armory_purchases c10Rich).2.1 (by with_unfolding_all decide),
   (c10_armory_purchases initState).2.2.1 (by with_unfolding_all decide),
   (c10_armory_purchases c10Rich).2.2.2.2.2.2.2.1 (by with_unfolding_all decide),
   (c10_armory_purchases initState).2.2.2.2.2.2.2.2
     ⟨[], fun j hj => absurd hj (List.not_mem_nil j), rfl⟩⟩

theorem powsFrom_refl (ps : List PowerUp) : PowsFrom ps ps :=
  fun p hp => ⟨p, hp, rfl, rfl, rfl⟩

theorem powsFrom_of_eq {ps qs : List PowerUp} (h : ps = qs) : PowsFrom ps qs :=
  fun p hp => ⟨p, h ▸ hp, rfl, rfl, rfl⟩

theorem powsFrom_trans {a b c : List PowerUp} (h1 : PowsFrom a b)
    (h2 : PowsFrom b c) : PowsFrom a c := by
  intro p hp
  obtain ⟨q, hq, e1, e2, e3⟩ := h1 p hp
  obtain ⟨r, hr, f1, f2, f3⟩ := h2 q hq
  exact ⟨r, hr, e1.trans f1, e2.trans f2, e3.trans f3⟩

theorem powsFrom_set_inactive (ps : List PowerUp) (idx : ℕ) (p : PowerUp)
    (hp : p ∈ ps) : PowsFrom (ps.set idx { p with active := false }) ps := by
  intro x hx
  rcases List.mem_or_eq_of_mem_set hx with h | h
  · exact ⟨x, h, rfl, rfl, rfl⟩
  · subst h
    exact ⟨p, hp, rfl, rfl, rfl⟩

theorem findPickup_mem (m : V2) :
    ∀ (ps : List PowerUp) (j idx : ℕ) (p : PowerUp),
      findPickup m ps j = some (idx, p) → p ∈ ps := by
  intro ps
  induction ps with
  | nil =>
    intro j idx p h
    simp [findPickup] at h
  | cons q r ih =>
    intro j idx p h
    simp only [findPickup] at h
    split_ifs at h with hc
    · injection h with h
      have h2 : q = p := congrArg Prod.snd h
      subst h2
      exact List.mem_cons_self q r
    · exact List.mem_cons_of_mem q (ih (j + 1) idx p h)

theorem applyPickup_pows (i : Input) (idx : ℕ) (p : PowerUp) (s : GameState) :
    (applyPickup i idx p s).powerups
      = s.powerups.set idx { p with active := false } := by
  unfold applyPickup
  cases hp : p.ptype <;> rfl

theorem applyPickup_keeps (i : Input) (idx : ℕ) (p : PowerUp) (s : GameState) :
    (applyPickup i idx p s).waveActive = s.waveActive ∧
    (applyPickup i idx p s).enemies = s.enemies := by
  unfold applyPickup
  cases hp : p.ptype <;> exact ⟨rfl, rfl⟩

theorem clickPhase_keeps (i : Input) (ui : Bool) (s : GameState) :
    (clickPhase i ui s).waveActive = s.waveActive ∧
    (clickPhase i ui s).enemies = s.enemies ∧
    PowsFrom (clickPhase i ui s).powerups s.powerups := by
  by_cases hc : (i.mousePressed && !ui) = true
  · cases hf : findPickup i.mousePos s.powerups 0 with
    | none =>
      by_cases hp : ((s.towers.length : ℤ) < s.maxTowers ∧ 7225 < dist2 i.mousePos corePos)
      · have he : clickPhase i ui s
            = { s with towers := s.towers ++ [⟨i.mousePos, 0, s.currentSelection⟩] } := by
          simp [clickPhase, hc, hf, hp]
        rw [he]
        exact ⟨rfl, rfl, powsFrom_refl _⟩
      · have he : clickPhase i ui s = s := by simp [clickPhase, hc, hf, hp]
        rw [he]
        exact ⟨rfl, rfl, powsFrom_refl _⟩
    | some v =>
      obtain ⟨idx, pp⟩ := v
      have he : clickPhase i ui s = applyPickup i idx pp s := by simp [clickPhase, hc, hf]
      rw [he]
      refine ⟨(applyPickup_keeps i idx pp s).1, (applyPickup_keeps i idx pp s).2, ?_⟩
      rw [applyPickup_pows]
      exact powsFrom_set_inactive s.powerups idx pp (findPickup_mem i.mousePos s.powerups 0 idx pp hf)
  · have he : clickPhase i ui s = s := by simp [clickPhase, hc]
    rw [he]
    exact ⟨rfl, rfl, powsFrom_refl _⟩

theorem housekeeping_keeps (i : Input) (s : GameState) :
    (housekeeping i s).waveActive = s.waveActive ∧
    (housekeeping i s).enemies = s.enemies ∧
    (housekeeping i s).powerups = s.powerups := by
  unfold housekeeping
  dsimp only
  split_ifs <;> exact ⟨rfl, rfl, rfl⟩

theorem selectKeys_keeps (i : Input) (s : GameState) :
    (selectKeys i s).waveActive = s.waveActive ∧
    (selectKeys i s).enemies = s.enemies ∧
    (selectKeys i s).powerups = s.powerups := by
  unfold selectKeys
  dsimp only
  split_ifs <;> exact ⟨rfl, rfl, rfl⟩

theorem pulsePhase_keeps (i : Input) (pt : Bool) (s : GameState) :
    (pulsePhase i pt s).waveActive = s.waveActive ∧
    (pulsePhase i pt s).powerups = s.powerups := by
  unfold pulsePhase
  split_ifs <;> exact ⟨rfl, rfl⟩

theorem pulseP_enil (i : Input) (pt : Bool) (s : GameState)
    (he : s.enemies = []) : (pulsePhase i pt s).enemies = [] := by
  unfold pulsePhase
  split_ifs <;> simp [he]

theorem spawnPhase_calm (i : Input) (s : GameState)
    (hw : s.waveActive = false) : spawnPhase i s = s := by
  unfold spawnPhase
  rw [if_neg (by simp [hw])]

theorem waveEndStep_calm (s : GameState) (hw : s.waveActive = false) :
    waveEndStep s = s := by
  unfold waveEndStep
  rw [if_neg]
  intro hc
  exact absurd hc.1 (by simp [hw])

theorem towersPhase_keeps (i : Input) (s : GameState) :
    (towersPhase i s).waveActive = s.waveActive ∧
    (towersPhase i s).powerups = s.powerups :=
  ⟨rfl, rfl⟩

theorem lasersPhase_keeps (i : Input) (s : GameState) :
    (lasersPhase i s).waveActive = s.waveActive ∧
    (lasersPhase i s).powerups = s.powerups :=
  ⟨rfl, rfl⟩

theorem powerupsPhase_calm (i : Input) (s : GameState)
    (hw : s.waveActive = false) :
    PowsFrom (powerupsPhase i s).powerups s.powerups := by
  intro x hx
  unfold powerupsPhase at hx
  dsimp only at hx
  obtain ⟨hmem, -⟩ := List.mem_filter.mp hx
  simp only [List.mem_map] at hmem
  obtain ⟨q, hq, rfl⟩ := hmem
  exact ⟨q, hq, by simp [hw], rfl, rfl⟩

theorem particlesPhase_pows (i : Input) (s : GameState) :
    (particlesPhase i s).powerups = s.powerups := rfl

theorem notifsPhase_pows (i : Input) (s : GameState) :
    (notifsPhase i s).powerups = s.powerups := rfl

theorem visualsPhase_pows (i : Input) (s : GameState) :
    (visualsPhase i s).powerups = s.powerups := by
  unfold visualsPhase
  dsimp only
  split_ifs <;> rfl

theorem abilityTimersPhase_pows (i : Input) (s : GameState) :
    (abilityTimersPhase i s).powerups = s.powerups := by
  unfold abilityTimersPhase
  dsimp only
  split_ifs <;> rfl

theorem gameOverCheck_pows (s : GameState) :
    (gameOverCheck s).powerups = s.powerups := by
  unfold gameOverCheck
  split_ifs <;> rfl

theorem upgradeKey_pows (i : Input) (s : GameState) :
    (upgradeKey i s).powerups = s.powerups := by
  unfold upgradeKey
  split_ifs <;> rfl

theorem upgradeMenuUpdate_pows (i : Input) (s : GameState) :
    (upgradeMenuUpdate i s).powerups = s.powerups := by
  unfold upgradeMenuUpdate
  dsimp only
  split_ifs <;> rfl

theorem nameEntry_pows (i : Input) (s : GameState) :
    (nameEntry i s).powerups = s.powerups := by
  unfold nameEntry
  dsimp only
  split_ifs <;> rfl

theorem calmTail (i : Input) (pt : Bool) (u : GameState)
    (hw : u.waveActive = false) (he : u.enemies = []) :
    PowsFrom (upgradeKey i (gameOverCheck (abilityTimersPhase i (visualsPhase i
      (notifsPhase i (particlesPhase i (powerupsPhase i (lasersPhase i
      (towersPhase i (waveEndStep (sweepPhase i (spawnPhase i
      (pulsePhase i pt u))))))))))))).powerups u.powerups := by
  have hpw : (pulsePhase i pt u).waveActive = false :=
    (pulsePhase_keeps i pt u).1.trans hw
  have hpe : (pulsePhase i pt u).enemies = [] := pulseP_enil i pt u he
  rw [spawnPhase_calm i _ hpw, sweepPhase_nil i _ hpe, waveEndStep_calm _ hpw]
  rw [upgradeKey_pows, gameOverCheck_pows, abilityTimersPhase_pows,
    visualsPhase_pows, notifsPhase_pows, particlesPhase_pows]
  have hw9 : (lasersPhase i (towersPhase i (pulsePhase i pt u))).waveActive = false := by
    rw [(lasersPhase_keeps _ _).1, (towersPhase_keeps _ _).1]
    exact hpw
  refine powsFrom_trans (powerupsPhase_calm i _ hw9) ?_
  rw [(lasersPhase_keeps _ _).2, (towersPhase_keeps _ _).2, (pulsePhase_keeps _ _ _).2]
  exact powsFrom_refl _

theorem gameplayUpdate_calm (i : Input) (ui : Bool) (s : GameState)
    (hw : s.waveActive = false) (he : s.enemies = []) :
    PowsFrom (gameplayUpdate i ui s).powerups s.powerups := by
  have h1w : (selectKeys i s).waveActive = false := (selectKeys_keeps i s).1.trans hw
  have h1e : (selectKeys i s).enemies = [] := (selectKeys_keeps i s).2.1.trans he
  have h2w : (clickPhase i ui (selectKeys i s)).waveActive = false :=
    (clickPhase_keeps i ui (selectKeys i s)).1.trans h1w
  have h2e : (clickPhase i ui (selectKeys i s)).enemies = [] :=
    (clickPhase_keeps i ui (selectKeys i s)).2.1.trans h1e
  unfold gameplayUpdate
  dsimp only
  refine powsFrom_trans
    (calmTail i (pulseTriggered i (selectKeys i s)) (clickPhase i ui (selectKeys i s))
      h2w h2e) ?_
  refine powsFrom_trans (clickPhase_keeps i ui (selectKeys i s)).2.2 ?_
  exact powsFrom_of_eq (selectKeys_keeps i s).2.2

theorem updatePhase_calm (i : Input) (s : GameState)
    (hw : s.waveActive = false) (he : s.enemies = []) :
    PowsFrom (updatePhase i s).powerups s.powerups := by
  have h0p := (housekeeping_keeps i s).2.2
  have h0w := (housekeeping_keeps i s).1.trans hw
  have h0e := (housekeeping_keeps i s).2.1.trans he
  unfold updatePhase
  dsimp only
  cases hsc : (housekeeping i s).screen with
  | startMenu =>
    dsimp only
    split_ifs <;> exact powsFrom_of_eq h0p
  | guide =>
    dsimp only
    split_ifs <;> exact powsFrom_of_eq h0p
  | leaderboard =>
    dsimp only
    split_ifs <;> exact powsFrom_of_eq h0p
  | upgradeMenu =>
    exact powsFrom_trans (powsFrom_of_eq (upgradeMenuUpdate_pows i _))
      (powsFrom_of_eq h0p)
  | gameplay =>
    exact powsFrom_trans (gameplayUpdate_calm i _ _ h0w h0e) (powsFrom_of_eq h0p)
  | gameOver =>
    exact powsFrom_trans (powsFrom_of_eq (nameEntry_pows i _)) (powsFrom_of_eq h0p)

theorem buySlot_pows (s : GameState) : (buySlot s).powerups = s.powerups := by
  unfold buySlot
  dsimp only
  split_ifs <;> rfl

theorem buyPulse_pows (s : GameState) : (buyPulse s).powerups = s.powerups := by
  unfold buyPulse
  split_ifs <;> rfl

theorem buyOverclock_pows (s : GameState) : (buyOverclock s).powerups = s.powerups := by
  unfold buyOverclock
  split_ifs <;> rfl

theorem buyRepair_pows (s : GameState) : (buyRepair s).powerups = s.powerups := by
  unfold buyRepair
  split_ifs <;> rfl

theorem pows_ite (c : Prop) [Decidable c] (f : GameState → GameState)
    (s : GameState) (hf : ∀ u : GameState, (f u).powerups = u.powerups) :
    (if c then f s else s).powerups = s.powerups := by
  split_ifs with h
  · exact hf s
  · rfl

theorem armoryButtons_pows (i : Input) (s : GameState) :
    (armoryButtons i s).powerups = s.powerups := by
  unfold armoryButtons
  dsimp only
  have a1 := pows_ite (clicked i buySlotRect = true) buySlot s
    (fun u => buySlot_pows u)
  have a2 := pows_ite (clicked i buyPulseRect = true) buyPulse
    (if clicked i buySlotRect = true then buySlot s else s)
    (fun u => buyPulse_pows u)
  have a3 := pows_ite (clicked i buyFireRect = true) buyOverclock
    (if clicked i buyPulseRect = true then
      buyPulse (if clicked i buySlotRect = true then buySlot s else s)
    else (if clicked i buySlotRect = true then buySlot s else s))
    (fun u => buyOverclock_pows u)
  have a4 := pows_ite (clicked i buyRepairRect = true) buyRepair
    (if clicked i buyFireRect = true then
      buyOverclock (if clicked i buyPulseRect = true then
        buyPulse (if clicked i buySlotRect = true then buySlot s else s)
      else (if clicked i buySlotRect = true then buySlot s else s))
    else (if clicked i buyPulseRect = true then
      buyPulse (if clicked i buySlotRect = true then buySlot s else s)
    else (if clicked i buySlotRect = true then buySlot s else s)))
    (fun u => buyRepair_pows u)
  exact ((a4.trans a3).trans a2).trans a1

theorem footerButtons_pows (i : Input) (s : GameState) :
    (footerButtons i s).powerups = s.powerups := by
  unfold footerButtons startWave
  dsimp only
  split_ifs <;> rfl

theorem renderPhase_pows (i : Input) (s : GameState) :
    PowsFrom (renderPhase i s).powerups s.powerups := by
  unfold renderPhase
  by_cases hm1 : s.screen = GameScreen.startMenu
  · rw [if_pos hm1]
    dsimp only
    split_ifs <;> exact powsFrom_of_eq rfl
  · rw [if_neg hm1]
    by_cases hm2 : (s.screen = GameScreen.guide ∨ s.screen = GameScreen.leaderboard)
    · rw [if_pos hm2]
      split_ifs <;> exact powsFrom_of_eq rfl
    · rw [if_neg hm2]
      by_cases hm3 : (s.screen = GameScreen.gameplay ∨ s.screen = GameScreen.upgradeMenu)
      · rw [if_pos hm3]
        dsimp only
        by_cases hfc : (s.screen = GameScreen.gameplay ∧ s.waveActive = false ∧
            s.enemies = [])
        · rw [if_pos hfc]
          split_ifs with hc
          · exact powsFrom_of_eq
              ((armoryButtons_pows i (footerButtons i s)).trans (footerButtons_pows i s))
          · exact powsFrom_of_eq (footerButtons_pows i s)
        · rw [if_neg hfc]
          split_ifs with hc
          · exact powsFrom_of_eq (armoryButtons_pows i s)
          · exact powsFrom_of_eq rfl
      · rw [if_neg hm3]
        by_cases hm4 : s.screen = GameScreen.gameOver
        · rw [if_pos hm4]
          dsimp only
          split_ifs <;>
            first
              | exact powsFrom_of_eq rfl
              | exact fun p hp => absurd hp (List.not_mem_nil p)
        · rw [if_neg hm4]
          exact powsFrom_of_eq rfl

theorem frameStep_calm (i : Input) (s : GameState)
    (hw : s.waveActive = false) (he : s.enemies = []) :
    PowsFrom (frameStep s i).powerups s.powerups :=
  powsFrom_trans (renderPhase_pows i (updatePhase i s)) (updatePhase_calm i s hw he)

theorem runFrames_append (l1 l2 : List Input) :
    ∀ s, runFrames s (l1 ++ l2) = runFrames (runFrames s l1) l2 := by
  induction l1 with
  | nil => intro s; rfl
  | cons i r ih =>
    intro s
    simp only [List.cons_append, runFrames]
    exact ih (frameStep s i)

theorem reachable_step {s : GameState} {i : Input} (hr : Reachable s)
    (hv : ValidInput i) : Reachable (frameStep s i) := by
  obtain ⟨l, hl, hrun⟩ := hr
  refine ⟨l ++ [i], ?_, ?_⟩
  · intro j hj
    rcases List.mem_append.mp hj with h | h
    · exact hl j h
    · simp only [List.mem_singleton] at h
      subst h
      exact hv
  · rw [runFrames_append, hrun]
    rfl

theorem runFrames_calm :
    ∀ (l : List Input) (s : GameState), Reachable s →
      (∀ j ∈ l, ValidInput j) → AllCalm s l →
      PowsFrom (runFrames s l).powerups s.powerups := by
  intro l
  induction l with
  | nil =>
    intro s _ _ _
    exact powsFrom_refl _
  | cons i r ih =>
    intro s hr hv hc
    simp only [runFrames]
    have hen : s.enemies = [] := (reachable_simInv hr).2.2.2.2.2.1 hc.1
    refine powsFrom_trans
      (ih (frameStep s i) (reachable_step hr (hv i (List.mem_cons_self i r)))
        (fun j hj => hv j (List.mem_cons_of_mem i hj)) hc.2) ?_
    exact frameStep_calm i s hc.1 hen

/-- C8 (confirmed): while no wave is active the power-up countdown is frozen —
over a frame from a reachable wave-inactive state every surviving power-up
keeps the timer, type and position of a power-up of the previous state, and
the same holds across any valid frame sequence along which the wave stays
inactive; within the power-up sweep itself only the rotation advances (by
120°/s) while the timer is copied unchanged. -/
theorem c8_powerup_freeze (s : GameState) (i : Input) (l : List Input) :
    (Reachable s → s.waveActive = false →
      PowsFrom (frameStep s i).powerups s.powerups) ∧
    (Reachable s → (∀ j ∈ l, ValidInput j) → AllCalm s l →
      PowsFrom (runFrames s l).powerups s.powerups) ∧
    (s.waveActive = false → ∀ p ∈ (powerupsPhase i s).powerups,
      ∃ q ∈ s.powerups, p.timer = q.timer ∧
        p.rotation = q.rotation + 120 * i.dt) := by
  refine ⟨?_, ?_, ?_⟩
  · intro hr hw
    exact frameStep_calm i s hw ((reachable_simInv hr).2.2.2.2.2.1 hw)
  · intro hr hv hc
    exact runFrames_calm l s hr hv hc
  · intro hw p hp
    unfold powerupsPhase at hp
    dsimp only at hp
    obtain ⟨hmem, -⟩ := List.mem_filter.mp hp
    simp only [List.mem_map] at hmem
    obtain ⟨q, hq, rfl⟩ := hmem
    exact ⟨q, hq, by simp [hw], rfl⟩

set_option maxRecDepth 100000 in
/-- C8 witness: the freeze theorem applied at the reachable build-phase state
holding a freshly dropped power-up, under an idle frame. -/
theorem c8_powerup_freeze_witness :
    PowsFrom (frameStep powerupDemoState idleInput).powerups
      powerupDemoState.powerups ∧
    (∀ p ∈ (powerupsPhase idleInput powerupDemoState).powerups,
      ∃ q ∈ powerupDemoState.powerups, p.timer = q.timer ∧
        p.rotation = q.rotation + 120 * idleInput.dt) :=
  ⟨(c8_powerup_freeze powerupDemoState idleInput []).1
     ⟨powerupDemoTrace, by with_unfolding_all decide, rfl⟩
     (by with_unfolding_all decide),
   (c8_powerup_freeze powerupDemoState idleInput []).2.2
     (by with_unfolding_all decide)⟩
